import Mathlib

/-!
Verification development for the rlox tree-walking Lox interpreter.

The Rust sources are shallowly embedded: machine floats (`f64`) are
idealised as exact rationals (`ℚ`), reference-counted mutable cells
(`Rc<RefCell<Environment>>`, `Rc<RefCell<LoxInstance>>`) become arenas
indexed by natural numbers threaded through an explicit interpreter
state, Rust panics (`unwrap`, `unreachable!`) become a distinguished
`panic` outcome, and the handful of interpreter loops that are not
structurally recursive are driven by an explicit fuel parameter whose
exhaustion is a distinguished `fuelOut` outcome (the Rust code either
terminates, which fuel large enough reproduces, or diverges, which
`fuelOut` for every fuel reproduces).
-/

set_option maxHeartbeats 1000000

namespace RLox

/-! ## Tokens -/

/-- Modelled from the spec: `main.rs` declares `mod token;` but `token.rs` is
not present in the source tree.  Spec §3: `kind` is one of a fixed
enumeration: single-character punctuation, one- or two-character operators,
literals (`Identifier`, `String(text)`, `Number(f64)`), keywords, and `Eof`.
Number payloads are idealised as exact rationals. -/
inductive TokenType where
  | leftParen | rightParen | leftBrace | rightBrace
  | comma | dot | semicolon | plus | minus | star | slash
  | bang | bangEqual | equal | equalEqual
  | less | lessEqual | greater | greaterEqual
  | identifier
  | string (text : String)
  | number (value : ℚ)
  | andKw | classKw | elseKw | falseKw | forKw | funKw | ifKw | nilKw
  | orKw | printKw | returnKw | superKw | thisKw | trueKw | varKw | whileKw
  | eof
deriving DecidableEq, Repr

/-- Modelled from the spec: Token is the record `{kind, lexeme, line}`
(spec §3).  `lexer.rs` adds `impl PartialEq for Token`: two tokens compare
equal iff their `token_type` matches structurally. -/
structure Token where
  tokenType : TokenType
  lexeme : String
  line : Nat
deriving DecidableEq, Repr

/-! ## AST (`statement.rs`) -/

abbrev ExprId := Nat

inductive Expr where
  | number (value : ℚ)
  | string (value : String)
  | boolean (value : Bool)
  | nil
  | binary (left : Expr) (tokenType : TokenType) (right : Expr)
  | call (callee : Expr) (arguments : List Expr)
  | get (object : Expr) (name : String)
  | set (object : Expr) (name : String) (value : Expr)
  | superE (id : ExprId) (keyword : String) (method : String)
  | thisE (id : ExprId) (keyword : String)
  | grouping (expression : Expr)
  | unary (tokenType : TokenType) (right : Expr)
  | logical (left : Expr) (operator : TokenType) (right : Expr)
  | variable (id : ExprId) (name : String)
  | assign (id : ExprId) (name : String) (value : Expr)

inductive Stmt where
  | expression (expression : Expr)
  | print (expression : Expr)
  | var (name : String) (initializer : Option Expr)
  | block (statements : List Stmt)
  | ifS (condition : Expr) (thenBranch : Stmt) (elseBranch : Option Stmt)
  | whileS (condition : Expr) (body : Stmt)
  | function (name : String) (parameters : List String) (body : List Stmt)
  | ret (value : Option Expr)
  | classS (name : String) (superclass : Option Expr) (methods : List Stmt)

/-! ## Runtime values (`object.rs`, `functions.rs`, `classes.rs`)

Environments and instances are mutable shared cells in Rust
(`Rc<RefCell<_>>`); here they are entries of arenas stored in the
interpreter state, and values referring to them hold arena indices. -/

/-- `functions.rs`: `LoxFunction { parameters, body, closure, is_initializer }`,
with the closure held by reference (here: an environment-arena index). -/
structure LoxFunction where
  parameters : List String
  body : List Stmt
  closure : Nat
  isInitializer : Bool

/-- `classes.rs`: `LoxClass { name, superclass, methods }`.  Classes are
immutable once constructed, so the `Rc<LoxClass>` superclass link is
embedded by value; the `HashMap` of methods becomes an association list
with insert-overwrite semantics. -/
inductive LoxClass where
  | mk (name : String) (superclass : Option LoxClass)
       (methods : List (String × LoxFunction))

def LoxClass.name : LoxClass → String
  | .mk n _ _ => n

def LoxClass.superclass : LoxClass → Option LoxClass
  | .mk _ s _ => s

def LoxClass.methods : LoxClass → List (String × LoxFunction)
  | .mk _ _ m => m

/-- Association-list lookup, mirroring `HashMap::get`. -/
def lookupA {α : Type} : List (String × α) → String → Option α
  | [], _ => none
  | (k, v) :: tl, name => if k = name then some v else lookupA tl name

/-- Association-list insert with overwrite, mirroring `HashMap::insert`. -/
def insertA {α : Type} : List (String × α) → String → α → List (String × α)
  | [], name, v => [(name, v)]
  | (k, w) :: tl, name, v =>
      if k = name then (k, v) :: tl else (k, w) :: insertA tl name v

/-- `classes.rs` `LoxClass::find_method`: look in own methods, then walk the
superclass chain. -/
def LoxClass.findMethod : LoxClass → String → Option LoxFunction
  | .mk _ sup methods, name =>
      match lookupA methods name with
      | some m => some m
      | none =>
          match sup with
          | some s => s.findMethod name
          | none => none

/-- `functions.rs`: the `Function` trait objects stored in
`Object::Function`: the native `Clock` or a user `LoxFunction`. -/
inductive Func where
  | clock
  | lox (f : LoxFunction)

/-- `object.rs`: the runtime value. `Instance` is a shared mutable cell,
modelled as an index into the instance arena. -/
inductive Object where
  | nil
  | boolean (b : Bool)
  | number (n : ℚ)
  | string (s : String)
  | function (f : Func)
  | classObj (c : LoxClass)
  | instanceObj (r : Nat)

/-- `object.rs` `impl PartialEq for Object`: structural on primitives,
false for every other combination. -/
def Object.peq : Object → Object → Bool
  | .boolean a, .boolean b => a = b
  | .nil, .nil => true
  | .number a, .number b => a = b
  | .string a, .string b => a = b
  | _, _ => false

/-! ## Errors (`error.rs`) -/

inductive LoxError where
  | parserError (line : Option Nat) (reason : String)
  | lexerError (line : Nat) (reason : String)
  | interpreterError (reason : String)
  | environmentError (reason : String)
  | resolverError (reason : String)
  | ret (value : Object)

/-! ## Lexer (`lexer.rs`) -/

/-- The lexer's iterator state: the full source (for slicing
`&self.source[a..b]`) and the remaining enumerated characters
(`Peekable<Enumerate<Chars>>`). -/
structure LexerSt where
  source : List Char
  rest : List (Nat × Char)
  line : Nat
  eofReturned : Bool
deriving DecidableEq, Repr

/-- `&self.source[a..b]` for character positions. -/
def slice (source : List Char) (a b : Nat) : String :=
  String.mk ((source.drop a).take (b - a))

/-- `Lexer::end_pos`: position of the peeked character, or `source.len()`. -/
def endPos (sourceLen : Nat) : List (Nat × Char) → Nat
  | [] => sourceLen
  | (p, _) :: _ => p

/-- The `while self.is_digit() { self.source_iter.next(); }` loop. -/
def skipDigits : List (Nat × Char) → List (Nat × Char)
  | (p, c) :: tl => if c.isDigit then skipDigits tl else (p, c) :: tl
  | [] => []

/-- `Lexer::is_alpha`: ASCII letters and underscore. -/
def isAlphaRust (c : Char) : Bool :=
  (('a' ≤ c && c ≤ 'z') || ('A' ≤ c && c ≤ 'Z')) || c = '_'

/-- The `while self.is_alpha() || self.is_digit()` loop in `identifier`. -/
def skipAlnum : List (Nat × Char) → List (Nat × Char)
  | (p, c) :: tl =>
      if isAlphaRust c || c.isDigit then skipAlnum tl else (p, c) :: tl
  | [] => []

/-- `Iterator::nth(n)`: consume `n + 1` elements, returning the last one
consumed if the iterator was long enough. -/
def nthIter : Nat → List (Nat × Char) → Option (Nat × Char) × List (Nat × Char)
  | _, [] => (none, [])
  | 0, x :: tl => (some x, tl)
  | n + 1, _ :: tl => nthIter n tl

/-- `Lexer::string`: consume until a closing quote; hitting end of input
yields `LexerError(line, "Unterminated string")`.  The line counter is not
advanced by newlines inside the literal, exactly as in the source. -/
def lexStringGo (source : List Char) (line : Nat) (startPos : Nat) :
    List (Nat × Char) → Except LoxError TokenType × List (Nat × Char)
  | [] => (.error (.lexerError line "Unterminated string"), [])
  | (pos, ch) :: tl =>
      if ch = '"' then (.ok (.string (slice source startPos pos)), tl)
      else lexStringGo source line startPos tl

/-- Digit list to natural number value. -/
def digitsVal (l : List Char) : Nat :=
  l.foldl (fun a c => a * 10 + (c.toNat - 48)) 0

/-- Modelled standard-library behaviour: `str::parse::<f64>` on the decimal
fragment of Rust's float grammar, computed exactly over `ℚ`
(`[+-]? (digits+ ('.' digits*)? | '.' digits+) ([eE] [+-]? digits+)?`;
the `inf`/`NaN` forms cannot reach this call because the lexer only slices
strings that start with a digit). `none` models a `ParseFloatError`, which
the caller `unwrap`s into a panic. -/
def parseF64 (s : String) : Option ℚ :=
  let l := s.data
  let (sgn, l1) : Int × List Char :=
    match l with
    | c :: tl => if c = '+' then (1, tl) else if c = '-' then (-1, tl) else (1, l)
    | [] => (1, l)
  let ip := l1.takeWhile Char.isDigit
  let r1 := l1.dropWhile Char.isDigit
  let (hasMantissa, mantNum, mantDenPow, r2) : Bool × Nat × Nat × List Char :=
    match r1 with
    | '.' :: tl =>
        let fp := tl.takeWhile Char.isDigit
        let r2 := tl.dropWhile Char.isDigit
        if ip.isEmpty && fp.isEmpty then (false, 0, 0, r2)
        else (true, digitsVal ip * 10 ^ fp.length + digitsVal fp, fp.length, r2)
    | _ => (!ip.isEmpty, digitsVal ip, 0, r1)
  if !hasMantissa then none
  else
    match r2 with
    | [] => some (mkRat (sgn * mantNum) (10 ^ mantDenPow))
    | e :: tl =>
        if e = 'e' || e = 'E' then
          let (eneg, tl1) : Bool × List Char :=
            match tl with
            | '+' :: tl1 => (false, tl1)
            | '-' :: tl1 => (true, tl1)
            | _ => (false, tl)
          let ed := tl1.takeWhile Char.isDigit
          let r3 := tl1.dropWhile Char.isDigit
          if ed.isEmpty || !r3.isEmpty then none
          else if eneg then
            some (mkRat (sgn * mantNum) (10 ^ (mantDenPow + digitsVal ed)))
          else some (mkRat (sgn * mantNum * 10 ^ digitsVal ed) (10 ^ mantDenPow))
        else none

/-- `Lexer::number`.  Faithfully reproduces the `nth(digit_pos + 1)` call,
which treats the absolute source position of the `.` as a relative iterator
index, and the final `number.parse().unwrap()`, whose failure is a panic
(`none`). -/
def lexNumber (source : List Char) (startPos : Nat) (rest : List (Nat × Char)) :
    Option (TokenType × List (Nat × Char)) :=
  let r1 := skipDigits rest
  let r2 :=
    match r1 with
    | (digitPos, '.') :: _ =>
        match nthIter (digitPos + 1) r1 with
        | (some (_, c), r) => if c.isDigit then skipDigits (r.drop 1) else r
        | (none, r) => r
    | _ => r1
  match parseF64 (slice source startPos (endPos source.length r2)) with
  | some q => some (.number q, r2)
  | none => none

/-- `Lexer::identifier`: keyword table lookup by exact string. -/
def keywordOrIdentifier (text : String) : TokenType :=
  if text = "and" then .andKw
  else if text = "class" then .classKw
  else if text = "else" then .elseKw
  else if text = "false" then .falseKw
  else if text = "for" then .forKw
  else if text = "fun" then .funKw
  else if text = "if" then .ifKw
  else if text = "nil" then .nilKw
  else if text = "or" then .orKw
  else if text = "print" then .printKw
  else if text = "return" then .returnKw
  else if text = "super" then .superKw
  else if text = "this" then .thisKw
  else if text = "true" then .trueKw
  else if text = "var" then .varKw
  else if text = "while" then .whileKw
  else .identifier

def lexIdentifier (source : List Char) (startPos : Nat)
    (rest : List (Nat × Char)) : TokenType × List (Nat × Char) :=
  let r := skipAlnum rest
  (keywordOrIdentifier (slice source startPos (endPos source.length r)), r)

/-- The `while !self.matches('\n') { self.source_iter.next(); }` comment
loop.  When no newline remains the Rust loop never exits; with fuel this
is `none` for every fuel. -/
def skipComment : Nat → List (Nat × Char) → Option (List (Nat × Char))
  | 0, _ => none
  | _ + 1, (p, '\n') :: tl => some ((p, '\n') :: tl)
  | f + 1, _ :: tl => skipComment f tl
  | f + 1, [] => skipComment f []

/-- One step of the lexer iterator. -/
inductive LexStep where
  | item (r : Except LoxError Token)
  | finished
  | panic
  | fuelOut

/-- Build the token for a completed token type: lexeme is
`&self.source[self.start..self.end_pos()]`. -/
def mkToken (source : List Char) (start : Nat) (line : Nat)
    (tt : TokenType) (rest : List (Nat × Char)) : Token :=
  { tokenType := tt, lexeme := slice source start (endPos source.length rest),
    line := line }

/-- `impl Iterator for Lexer`: `fn next`.  Two-character operators peek and
consume; whitespace, newlines and comments recurse; an `Err` coming back
from `string` is dropped by the `if token_type.is_err() { return self.next() }`
branch; unknown characters are returned as `Err` items. -/
def lexerNext : Nat → LexerSt → LexStep × LexerSt
  | 0, st => (.fuelOut, st)
  | fuel + 1, st =>
      match st.rest with
      | [] =>
          if st.eofReturned then (.finished, st)
          else (.item (.ok ⟨.eof, "", st.line⟩), { st with eofReturned := true })
      | (pos, ch) :: tl =>
          let st1 : LexerSt := { st with rest := tl }
          let simple (tt : TokenType) : LexStep × LexerSt :=
            (.item (.ok (mkToken st.source pos st.line tt tl)), st1)
          let twoChar (expected : Char) (two one : TokenType) : LexStep × LexerSt :=
            match tl with
            | (_, c) :: tl2 =>
                if c = expected then
                  (.item (.ok (mkToken st.source pos st.line two tl2)),
                   { st with rest := tl2 })
                else simple one
            | [] => simple one
          if ch = '(' then simple .leftParen
          else if ch = ')' then simple .rightParen
          else if ch = '{' then simple .leftBrace
          else if ch = '}' then simple .rightBrace
          else if ch = ',' then simple .comma
          else if ch = '.' then simple .dot
          else if ch = '+' then simple .plus
          else if ch = '-' then simple .minus
          else if ch = '*' then simple .star
          else if ch = ';' then simple .semicolon
          else if ch = '!' then twoChar '=' .bangEqual .bang
          else if ch = '=' then twoChar '=' .equalEqual .equal
          else if ch = '<' then twoChar '=' .lessEqual .less
          else if ch = '>' then twoChar '=' .greaterEqual .greater
          else if ch = '/' then
            match tl with
            | (_, '/') :: _ =>
                match skipComment fuel tl with
                | some r => lexerNext fuel { st with rest := r }
                | none => (.fuelOut, st)
            | _ => simple .slash
          else if ch = ' ' then lexerNext fuel st1
          else if ch = '\r' then lexerNext fuel st1
          else if ch = '\t' then lexerNext fuel st1
          else if ch = '\n' then lexerNext fuel { st1 with line := st.line + 1 }
          else if ch = '"' then
            match lexStringGo st.source st.line (pos + 1) tl with
            | (.ok tt, r) =>
                (.item (.ok (mkToken st.source pos st.line tt r)),
                 { st with rest := r })
            | (.error _, r) => lexerNext fuel { st with rest := r }
          else if ch.isDigit then
            match lexNumber st.source pos tl with
            | some (tt, r) =>
                (.item (.ok (mkToken st.source pos st.line tt r)),
                 { st with rest := r })
            | none => (.panic, st1)
          else if isAlphaRust ch then
            match lexIdentifier st.source pos tl with
            | (tt, r) =>
                (.item (.ok (mkToken st.source pos st.line tt r)),
                 { st with rest := r })
          else
            (.item (.error (.lexerError st.line
              ("Unexpected character '" ++ String.mk [ch] ++ "'"))), st1)

/-- Failure modes of a whole lexer run. -/
inductive RunFail where
  | panic
  | fuelOut
deriving DecidableEq, Repr

/-- Drive the lexer iterator to completion, partitioning `Ok`/`Err` items
in order (`lexer.rs` `lex`'s `partition`). -/
def lexGo : Nat → LexerSt → List Token → List LoxError →
    Except RunFail (List Token × List LoxError)
  | 0, _, _, _ => .error .fuelOut
  | fuel + 1, st, toks, errs =>
      match lexerNext (fuel + 1) st with
      | (.finished, _) => .ok (toks.reverse, errs.reverse)
      | (.item (.ok t), st') => lexGo fuel st' (t :: toks) errs
      | (.item (.error e), st') => lexGo fuel st' toks (e :: errs)
      | (.panic, _) => .error .panic
      | (.fuelOut, _) => .error .fuelOut

/-- `lexer.rs` `pub fn lex`. -/
def lex (fuel : Nat) (s : String) : Except RunFail (List Token × List LoxError) :=
  lexGo fuel ⟨s.data, s.data.enum, 1, false⟩ [] []

/-! ## Parser (`parser.rs`)

The parser is embedded in a small state monad over the remaining token
list plus the `ExprId` counter (`next_id`'s global atomic, modelled as a
per-parse counter starting at 0; only equality of ids matters).  Errors
keep the state, because the driver keeps pulling statements after an
error.  `unreachable!()` is the `panic` outcome and recursion is fueled. -/

/-- Shared failure channel for the embedded passes: a surfaced `LoxError`,
a Rust panic (`unwrap` / `unreachable!`), or fuel exhaustion standing for
non-termination of the corresponding Rust loop/recursion. -/
inductive Fault where
  | err (e : LoxError)
  | panic
  | fuelOut

structure ParserSt where
  tokens : List Token
  nextId : Nat

abbrev PM (α : Type) := ParserSt → Except Fault α × ParserSt

instance : Monad PM where
  pure a := fun st => (.ok a, st)
  bind x f := fun st =>
    match x st with
    | (.ok a, st') => f a st'
    | (.error e, st') => (.error e, st')

def throwP {α : Type} (e : LoxError) : PM α := fun st => (.error (.err e), st)

def panicP {α : Type} : PM α := fun st => (.error .panic, st)

/-- `self.token_iter.peek()`. -/
def peekP : PM (Option Token) := fun st => (.ok st.tokens.head?, st)

/-- `self.token_iter.next()`. -/
def nextTokenP : PM (Option Token) :=
  fun st => (.ok st.tokens.head?, { st with tokens := st.tokens.tail })

/-- `next_id()`. -/
def nextIdP : PM Nat := fun st => (.ok st.nextId, { st with nextId := st.nextId + 1 })

/-- `Parser::matches`. -/
def matchesP (tokenTypes : List TokenType) : PM Bool :=
  fun st =>
    (.ok (match st.tokens.head? with
          | some t => tokenTypes.contains t.tokenType
          | none => false), st)

/-- `Parser::consume`. -/
def consume (tokenType : TokenType) (errorMessage : String) : PM Unit := do
  let t ← nextTokenP
  match t with
  | some token =>
      if token.tokenType = tokenType then pure ()
      else throwP (.parserError (some token.line) errorMessage)
  | none => throwP (.parserError none errorMessage)

/-- `Parser::identifier_name`.  Note: the some-token message has no final
period, the none-token one does, exactly as in the source. -/
def identifierName (kind : String) : PM String := do
  let t ← nextTokenP
  match t with
  | some token =>
      match token.tokenType with
      | .identifier => pure token.lexeme
      | _ => throwP (.parserError (some token.line) ("Expect " ++ kind ++ " name"))
  | none => throwP (.parserError none ("Expect " ++ kind ++ " name."))

/-- `Parser::expected_expression`. -/
def expectedExpression {α : Type} (line : Option Nat) : PM α :=
  throwP (.parserError line "Unexpected end of file, expected expression.")

mutual

def statement : Nat → PM Stmt
  | 0 => fun st => (.error .fuelOut, st)
  | fuel + 1 => fun st =>
      (match st.tokens.head? with
       | some token =>
           (match token.tokenType with
            | .printKw => printStatement fuel
            | .varKw => varDeclaration fuel
            | .leftBrace => block fuel
            | .ifKw => ifStatement fuel
            | .whileKw => whileStatement fuel
            | .forKw => forStatement fuel
            | .funKw => do
                let _ ← nextTokenP
                functionDecl fuel
            | .classKw => classStmt fuel
            | .returnKw => returnStatement fuel
            | _ => expressionStatement fuel)
       | none => panicP) st

def classStmt : Nat → PM Stmt
  | 0 => fun st => (.error .fuelOut, st)
  | fuel + 1 => do
      consume .classKw "Classes begin with 'class'"
      let name ← identifierName "class"
      let m ← matchesP [.less]
      let superclass ←
        if m then do
          let _ ← nextTokenP
          let superclassIdentifier ← identifierName "class"
          let i ← nextIdP
          pure (some (Expr.variable i superclassIdentifier))
        else pure none
      consume .leftBrace "Expect '\x7b' before class body"
      let methods ← classMethods fuel []
      consume .rightBrace "Expect '\x7d' after class body"
      pure (Stmt.classS name superclass methods)

def classMethods : Nat → List Stmt → PM (List Stmt)
  | 0, _ => fun st => (.error .fuelOut, st)
  | fuel + 1, acc => do
      let m ← matchesP [.rightBrace]
      if m then pure acc.reverse
      else do
        let s ← functionDecl fuel
        classMethods fuel (s :: acc)

def returnStatement : Nat → PM Stmt
  | 0 => fun st => (.error .fuelOut, st)
  | fuel + 1 => do
      consume .returnKw "Return statements begin with 'return'"
      let m ← matchesP [.semicolon]
      let value ←
        if m then pure none
        else do
          let e ← expression fuel
          pure (some e)
      consume .semicolon "Expect ';' after return value."
      pure (Stmt.ret value)

def functionDecl : Nat → PM Stmt
  | 0 => fun st => (.error .fuelOut, st)
  | fuel + 1 => do
      let name ← identifierName "function"
      consume .leftParen "Expect '(' after function name"
      let parameters ← paramsLoop fuel []
      consume .rightParen "Expect ')' after parameters."
      let body ← block fuel
      match body with
      | .block statements => pure (Stmt.function name parameters statements)
      | _ => throwP (.parserError none "Expect function body")

def paramsLoop : Nat → List String → PM (List String)
  | 0, _ => fun st => (.error .fuelOut, st)
  | fuel + 1, acc => do
      let m ← matchesP [.rightParen]
      if m then pure acc.reverse
      else do
        let parameterName ← identifierName "parameter"
        let c ← matchesP [.comma]
        if c then do
          let _ ← nextTokenP
          paramsLoop fuel (parameterName :: acc)
        else paramsLoop fuel (parameterName :: acc)

def whileStatement : Nat → PM Stmt
  | 0 => fun st => (.error .fuelOut, st)
  | fuel + 1 => do
      consume .whileKw "While loops begin with 'while'."
      consume .leftParen "Expect '(' after 'while'."
      let condition ← expression fuel
      consume .rightParen "Expect ')' after while condition."
      let body ← statement fuel
      pure (Stmt.whileS condition body)

def forStatement : Nat → PM Stmt
  | 0 => fun st => (.error .fuelOut, st)
  | fuel + 1 => do
      consume .forKw "For loops begin with 'for'."
      consume .leftParen "Expect '(' after 'for'."
      let m1 ← matchesP [.semicolon]
      let initializer ←
        if m1 then do
          let _ ← nextTokenP
          pure none
        else do
          let mv ← matchesP [.varKw]
          if mv then do
            let s ← varDeclaration fuel
            pure (some s)
          else do
            let s ← expressionStatement fuel
            pure (some s)
      let m2 ← matchesP [.semicolon]
      let condition ← if m2 then pure (Expr.boolean true) else expression fuel
      consume .semicolon "Expect ';' after loop condition."
      let m3 ← matchesP [.rightParen]
      let increment ←
        if m3 then pure none
        else do
          let e ← expression fuel
          pure (some e)
      consume .rightParen "Expect ')' after for clauses."
      let body0 ← statement fuel
      let body1 :=
        match increment with
        | some inc => Stmt.block [body0, Stmt.expression inc]
        | none => body0
      let body2 := Stmt.whileS condition body1
      let body3 :=
        match initializer with
        | some i => Stmt.block [i, body2]
        | none => body2
      pure body3

def ifStatement : Nat → PM Stmt
  | 0 => fun st => (.error .fuelOut, st)
  | fuel + 1 => do
      consume .ifKw "If statements begin with 'if'."
      consume .leftParen "Expect '(' after 'if'."
      let condition ← expression fuel
      consume .rightParen "Expect ')' after if condition."
      let thenBranch ← statement fuel
      let m ← matchesP [.elseKw]
      let elseBranch ←
        if m then do
          let _ ← nextTokenP
          let s ← statement fuel
          pure (some s)
        else pure none
      pure (Stmt.ifS condition thenBranch elseBranch)

def block : Nat → PM Stmt
  | 0 => fun st => (.error .fuelOut, st)
  | fuel + 1 => do
      consume .leftBrace "Blocks begin with '\x7b'."
      let statements ← blockLoop fuel []
      consume .rightBrace "Expect '\x7d' after block."
      pure (Stmt.block statements)

def blockLoop : Nat → List Stmt → PM (List Stmt)
  | 0, _ => fun st => (.error .fuelOut, st)
  | fuel + 1, acc => do
      let m ← matchesP [.rightBrace]
      if m then pure acc.reverse
      else do
        let s ← statement fuel
        blockLoop fuel (s :: acc)

def printStatement : Nat → PM Stmt
  | 0 => fun st => (.error .fuelOut, st)
  | fuel + 1 => do
      consume .printKw "Print statements begin with 'print'."
      let e ← expression fuel
      consume .semicolon "Expect ';' after value."
      pure (Stmt.print e)

def varDeclaration : Nat → PM Stmt
  | 0 => fun st => (.error .fuelOut, st)
  | fuel + 1 => do
      consume .varKw "Var declarations begin with 'var'."
      let t ← nextTokenP
      match t with
      | some token =>
          match token.tokenType with
          | .identifier => do
              let m ← matchesP [.equal]
              let initializer ←
                if m then do
                  let _ ← nextTokenP
                  let e ← expression fuel
                  pure (some e)
                else pure none
              consume .semicolon "Expect ';' after expression."
              pure (Stmt.var token.lexeme initializer)
          | _ => throwP (.parserError (some token.line) "Expect variable name after 'var'.")
      | none => throwP (.parserError none "Expect variable name after 'var'.")

def expressionStatement : Nat → PM Stmt
  | 0 => fun st => (.error .fuelOut, st)
  | fuel + 1 => do
      let e ← expression fuel
      consume .semicolon "Expect ';' after expression."
      pure (Stmt.expression e)

def expression : Nat → PM Expr
  | 0 => fun st => (.error .fuelOut, st)
  | fuel + 1 => assignment fuel

def assignment : Nat → PM Expr
  | 0 => fun st => (.error .fuelOut, st)
  | fuel + 1 => do
      let expr ← orExpr fuel
      let m ← matchesP [.equal]
      if m then do
        let _ ← nextTokenP
        let value ← assignment fuel
        match expr with
        | .variable _ name => do
            let i ← nextIdP
            pure (Expr.assign i name value)
        | .get object name => pure (Expr.set object name value)
        | _ => throwP (.parserError none "Invalid assignment target")
      else pure expr

def orExpr : Nat → PM Expr
  | 0 => fun st => (.error .fuelOut, st)
  | fuel + 1 => do
      let e ← andExpr fuel
      orLoop fuel e

def orLoop : Nat → Expr → PM Expr
  | 0, _ => fun st => (.error .fuelOut, st)
  | fuel + 1, e => do
      let m ← matchesP [.orKw]
      if m then do
        let _ ← nextTokenP
        let right ← andExpr fuel
        orLoop fuel (Expr.logical e .orKw right)
      else pure e

def andExpr : Nat → PM Expr
  | 0 => fun st => (.error .fuelOut, st)
  | fuel + 1 => do
      let e ← equality fuel
      andLoop fuel e

def andLoop : Nat → Expr → PM Expr
  | 0, _ => fun st => (.error .fuelOut, st)
  | fuel + 1, e => do
      let m ← matchesP [.andKw]
      if m then do
        let _ ← nextTokenP
        let right ← equality fuel
        andLoop fuel (Expr.logical e .andKw right)
      else pure e

def equality : Nat → PM Expr
  | 0 => fun st => (.error .fuelOut, st)
  | fuel + 1 => do
      let e ← comparison fuel
      equalityLoop fuel e

/-- The `while let` loop of `Parser::equality`.  Faithful to the source:
the matched operators are `BangEqual | LessEqual`, and the right operand
is parsed with `addition`. -/
def equalityLoop : Nat → Expr → PM Expr
  | 0, _ => fun st => (.error .fuelOut, st)
  | fuel + 1, e => do
      let t ← peekP
      match t with
      | some token =>
          match token.tokenType with
          | .bangEqual | .lessEqual => do
              let _ ← nextTokenP
              let right ← addition fuel
              equalityLoop fuel (Expr.binary e token.tokenType right)
          | _ => pure e
      | none => pure e

def comparison : Nat → PM Expr
  | 0 => fun st => (.error .fuelOut, st)
  | fuel + 1 => do
      let e ← addition fuel
      comparisonLoop fuel e

def comparisonLoop : Nat → Expr → PM Expr
  | 0, _ => fun st => (.error .fuelOut, st)
  | fuel + 1, e => do
      let t ← peekP
      match t with
      | some token =>
          match token.tokenType with
          | .greater | .greaterEqual | .less | .lessEqual => do
              let _ ← nextTokenP
              let right ← addition fuel
              comparisonLoop fuel (Expr.binary e token.tokenType right)
          | _ => pure e
      | none => pure e

def addition : Nat → PM Expr
  | 0 => fun st => (.error .fuelOut, st)
  | fuel + 1 => do
      let e ← multiplication fuel
      additionLoop fuel e

def additionLoop : Nat → Expr → PM Expr
  | 0, _ => fun st => (.error .fuelOut, st)
  | fuel + 1, e => do
      let t ← peekP
      match t with
      | some token =>
          match token.tokenType with
          | .minus | .plus => do
              let _ ← nextTokenP
              let right ← multiplication fuel
              additionLoop fuel (Expr.binary e token.tokenType right)
          | _ => pure e
      | none => pure e

def multiplication : Nat → PM Expr
  | 0 => fun st => (.error .fuelOut, st)
  | fuel + 1 => do
      let e ← unary fuel
      multiplicationLoop fuel e

def multiplicationLoop : Nat → Expr → PM Expr
  | 0, _ => fun st => (.error .fuelOut, st)
  | fuel + 1, e => do
      let t ← peekP
      match t with
      | some token =>
          match token.tokenType with
          | .slash | .star => do
              let _ ← nextTokenP
              let right ← unary fuel
              multiplicationLoop fuel (Expr.binary e token.tokenType right)
          | _ => pure e
      | none => pure e

def unary : Nat → PM Expr
  | 0 => fun st => (.error .fuelOut, st)
  | fuel + 1 => do
      let t ← peekP
      match t with
      | some token =>
          match token.tokenType with
          | .bang | .minus => do
              let _ ← nextTokenP
              let right ← unary fuel
              pure (Expr.unary token.tokenType right)
          | _ => callExpr fuel
      | none => panicP

def callExpr : Nat → PM Expr
  | 0 => fun st => (.error .fuelOut, st)
  | fuel + 1 => do
      let e ← primary fuel
      callLoop fuel e

def callLoop : Nat → Expr → PM Expr
  | 0, _ => fun st => (.error .fuelOut, st)
  | fuel + 1, e => do
      let mp ← matchesP [.leftParen]
      if mp then do
        let _ ← nextTokenP
        let e' ← finishCall fuel e
        callLoop fuel e'
      else do
        let md ← matchesP [.dot]
        if md then do
          let _ ← nextTokenP
          let t ← nextTokenP
          match t with
          | some token =>
              match token.tokenType with
              | .identifier => callLoop fuel (Expr.get e token.lexeme)
              | _ => throwP (.parserError (some token.line) "Expect property name after '.'.")
          | none => throwP (.parserError none "Expect property name after '.'.")
        else pure e

def finishCall : Nat → Expr → PM Expr
  | 0, _ => fun st => (.error .fuelOut, st)
  | fuel + 1, callee => do
      let m ← matchesP [.rightParen]
      let arguments ←
        if m then pure []
        else do
          let a ← expression fuel
          argsLoop fuel [a]
      consume .rightParen "Expect ')' after arguments."
      pure (Expr.call callee arguments)

def argsLoop : Nat → List Expr → PM (List Expr)
  | 0, _ => fun st => (.error .fuelOut, st)
  | fuel + 1, acc => do
      let m ← matchesP [.comma]
      if m then do
        let _ ← nextTokenP
        let a ← expression fuel
        argsLoop fuel (a :: acc)
      else pure acc.reverse

def primary : Nat → PM Expr
  | 0 => fun st => (.error .fuelOut, st)
  | fuel + 1 => do
      let t ← nextTokenP
      match t with
      | some token =>
          match token.tokenType with
          | .falseKw => pure (Expr.boolean false)
          | .trueKw => pure (Expr.boolean true)
          | .nilKw => pure Expr.nil
          | .number num => pure (Expr.number num)
          | .string s => pure (Expr.string s)
          | .leftParen => do
              let e ← expression fuel
              let t2 ← nextTokenP
              match t2 with
              | some token2 =>
                  if token2.tokenType = .rightParen then pure (Expr.grouping e)
                  else throwP (.parserError (some token2.line)
                    ("Expected ')' but got '" ++ token2.lexeme ++ "'"))
              | none => expectedExpression none
          | .identifier => do
              let i ← nextIdP
              pure (Expr.variable i token.lexeme)
          | .superKw => do
              consume .dot "Expect '.' after super."
              let t2 ← nextTokenP
              let method ←
                match t2 with
                | some token2 =>
                    if token2.tokenType ≠ .identifier then
                      throwP (.parserError none "Expect superclass method name.")
                    else pure token2.lexeme
                | none => throwP (.parserError none "Expect superclass method name.")
              let i ← nextIdP
              pure (Expr.superE i "super" method)
          | .thisKw => do
              let i ← nextIdP
              pure (Expr.thisE i "this")
          | _ => expectedExpression none
      | none => expectedExpression none

end

/-- `impl Iterator for Parser` plus the `partition` in `parse`: pull
statements until the token stream is empty or at `Eof`, collecting
successes and errors in order. -/
def parseGo : Nat → ParserSt → List Stmt → List LoxError →
    Except RunFail (List Stmt × List LoxError)
  | 0, _, _, _ => .error .fuelOut
  | fuel + 1, st, ss, es =>
      match st.tokens.head? with
      | none => .ok (ss.reverse, es.reverse)
      | some t =>
          if t.tokenType = .eof then .ok (ss.reverse, es.reverse)
          else
            match statement (fuel + 1) st with
            | (.ok s, st') => parseGo fuel st' (s :: ss) es
            | (.error (.err e), st') => parseGo fuel st' ss (e :: es)
            | (.error .panic, _) => .error .panic
            | (.error .fuelOut, _) => .error .fuelOut

/-- `parser.rs` `pub fn parse`. -/
def parse (fuel : Nat) (tokens : List Token) :
    Except RunFail (List Stmt × List LoxError) :=
  parseGo fuel ⟨tokens, 0⟩ [] []


/-! ## Resolver (`resolver.rs`) -/

inductive FunctionType where
  | none | method | function | initializer
deriving DecidableEq, Repr

inductive ClassType where
  | none | classC | subClass
deriving DecidableEq, Repr

/-- The resolver state. The scope stack is a `Vec` in Rust with the
innermost scope last; here the head of the list is the innermost scope,
so `Vec::push`/`pop`/`last` become head operations and
`iter().rev().enumerate()` becomes plain indexing. -/
structure ResolverSt where
  scopes : List (List (String × Bool))
  depths : List (Nat × Nat)
  currentFunction : FunctionType
  currentClass : ClassType

/-- Association-list lookup on `Nat` keys (`HashMap<ExprId, Depth>`). -/
def lookupN {α : Type} : List (Nat × α) → Nat → Option α
  | [], _ => none
  | (k, v) :: tl, key => if k = key then some v else lookupN tl key

/-- Association-list insert with overwrite on `Nat` keys. -/
def insertN {α : Type} : List (Nat × α) → Nat → α → List (Nat × α)
  | [], key, v => [(key, v)]
  | (k, w) :: tl, key, v =>
      if k = key then (k, v) :: tl else (k, w) :: insertN tl key v

/-- `Resolver::begin_scope`. -/
def beginScope (st : ResolverSt) : ResolverSt :=
  { st with scopes := [] :: st.scopes }

/-- `Resolver::end_scope`. -/
def endScope (st : ResolverSt) : ResolverSt :=
  { st with scopes := st.scopes.tail }

/-- `Resolver::declare`: mark the name not-yet-defined in the innermost
scope; a no-op when the scope stack is empty. -/
def declareR (name : String) (st : ResolverSt) : ResolverSt :=
  match st.scopes with
  | [] => st
  | s :: tl => { st with scopes := insertA s name false :: tl }

/-- `Resolver::define`. -/
def defineR (name : String) (st : ResolverSt) : ResolverSt :=
  match st.scopes with
  | [] => st
  | s :: tl => { st with scopes := insertA s name true :: tl }

/-- `Resolver::resolve_local`: record the index of the innermost scope
containing the name, if any. -/
def resolveLocal (exprId : Nat) (name : String) (st : ResolverSt) : ResolverSt :=
  match st.scopes.findIdx? (fun s => (lookupA s name).isSome) with
  | some depth => { st with depths := insertN st.depths exprId depth }
  | none => st

mutual

def resolveStatement : Nat → Stmt → ResolverSt → Except Fault ResolverSt
  | 0, _, _ => .error .fuelOut
  | fuel + 1, stmt, st =>
      match stmt with
      | .block statements =>
          match resolveStatements fuel statements (beginScope st) with
          | .ok st' => .ok (endScope st')
          | .error e => .error e
      | .var name initializer =>
          let st1 := defineR name (declareR name st)
          match initializer with
          | some e => resolveExpression fuel e st1
          | none => .ok st1
      | .function name parameters body =>
          resolveFunction fuel name parameters body .function st
      | .expression e => resolveExpression fuel e st
      | .ifS condition thenBranch elseBranch =>
          match resolveExpression fuel condition st with
          | .ok st1 =>
              match resolveStatement fuel thenBranch st1 with
              | .ok st2 =>
                  match elseBranch with
                  | some s => resolveStatement fuel s st2
                  | none => .ok st2
              | .error e => .error e
          | .error e => .error e
      | .print e => resolveExpression fuel e st
      | .ret value =>
          if st.currentFunction = .none then
            .error (.err (.resolverError "Cannot return from top-level code."))
          else
            match value with
            | some v =>
                if st.currentFunction = .initializer then
                  .error (.err (.resolverError "Cannot return a value from an initializer."))
                else resolveExpression fuel v st
            | none => .ok st
      | .whileS condition body =>
          match resolveExpression fuel condition st with
          | .ok st1 => resolveStatement fuel body st1
          | .error e => .error e
      | .classS name superclass methods =>
          let enclosingClass := st.currentClass
          let st1 := { st with currentClass := ClassType.classC }
          let st2 := defineR name (declareR name st1)
          let selfInherit : Bool :=
            match superclass with
            | some (.variable _ superclassName) => name = superclassName
            | _ => false
          if selfInherit then
            .error (.err (.resolverError "A class cannot inherit from itself."))
          else
            let afterSuper : Except Fault ResolverSt :=
              match superclass with
              | some sc =>
                  let st3 := { st2 with currentClass := ClassType.subClass }
                  match resolveExpression fuel sc st3 with
                  | .ok st4 =>
                      let st5 := beginScope st4
                      .ok (defineR "super" st5)
                  | .error e => .error e
              | none => .ok st2
            match afterSuper with
            | .ok st6 =>
                let st7 := defineR "this" (beginScope st6)
                match resolveMethods fuel methods st7 with
                | .ok st8 =>
                    let st9 := endScope st8
                    let st10 := if superclass.isSome then endScope st9 else st9
                    .ok { st10 with currentClass := enclosingClass }
                | .error e => .error e
            | .error e => .error e

def resolveStatements : Nat → List Stmt → ResolverSt → Except Fault ResolverSt
  | 0, _, _ => .error .fuelOut
  | _ + 1, [], st => .ok st
  | fuel + 1, s :: tl, st =>
      match resolveStatement fuel s st with
      | .ok st' => resolveStatements fuel tl st'
      | .error e => .error e

def resolveMethods : Nat → List Stmt → ResolverSt → Except Fault ResolverSt
  | 0, _, _ => .error .fuelOut
  | _ + 1, [], st => .ok st
  | fuel + 1, m :: tl, st =>
      match m with
      | .function name parameters body =>
          let functionType :=
            if name = "init" then FunctionType.initializer else FunctionType.method
          match resolveFunction fuel name parameters body functionType st with
          | .ok st' => resolveMethods fuel tl st'
          | .error e => .error e
      | _ => .error .panic

def resolveFunction : Nat → String → List String → List Stmt → FunctionType →
    ResolverSt → Except Fault ResolverSt
  | 0, _, _, _, _, _ => .error .fuelOut
  | fuel + 1, name, parameters, body, functionType, st =>
      let st1 := defineR name (declareR name st)
      let enclosingFunction := st1.currentFunction
      let st2 := { st1 with currentFunction := functionType }
      let st3 := beginScope st2
      let st4 := parameters.foldl (fun s p => defineR p (declareR p s)) st3
      match resolveStatements fuel body st4 with
      | .ok st5 =>
          let st6 := endScope st5
          .ok { st6 with currentFunction := enclosingFunction }
      | .error e => .error e

def resolveExpression : Nat → Expr → ResolverSt → Except Fault ResolverSt
  | 0, _, _ => .error .fuelOut
  | fuel + 1, expr, st =>
      match expr with
      | .variable id name =>
          match st.scopes with
          | [] => .ok st
          | scope :: _ =>
              if lookupA scope name = some false then
                .error (.err (.resolverError
                  "Cannot read local variable in ints own initializer"))
              else .ok (resolveLocal id name st)
      | .thisE id keyword =>
          if st.currentClass = .none then
            .error (.err (.resolverError "Cannot use 'this' outside of a class."))
          else .ok (resolveLocal id keyword st)
      | .superE id keyword _ =>
          if st.currentClass = .none then
            .error (.err (.resolverError "Cannot use 'super' outside of a class."))
          else if st.currentClass ≠ .subClass then
            .error (.err (.resolverError "Cannot use 'super' in a class with no superclass."))
          else .ok (resolveLocal id keyword st)
      | .assign id name value =>
          match resolveExpression fuel value st with
          | .ok st1 => .ok (resolveLocal id name st1)
          | .error e => .error e
      | .binary left _ right =>
          match resolveExpression fuel left st with
          | .ok st1 => resolveExpression fuel right st1
          | .error e => .error e
      | .call callee arguments =>
          match resolveExpression fuel callee st with
          | .ok st1 => resolveExprList fuel arguments st1
          | .error e => .error e
      | .get object _ => resolveExpression fuel object st
      | .set object _ value =>
          match resolveExpression fuel object st with
          | .ok st1 => resolveExpression fuel value st1
          | .error e => .error e
      | .grouping e => resolveExpression fuel e st
      | .logical left _ right =>
          match resolveExpression fuel left st with
          | .ok st1 => resolveExpression fuel right st1
          | .error e => .error e
      | .unary _ right => resolveExpression fuel right st
      | .nil | .boolean _ | .number _ | .string _ => .ok st

def resolveExprList : Nat → List Expr → ResolverSt → Except Fault ResolverSt
  | 0, _, _ => .error .fuelOut
  | _ + 1, [], st => .ok st
  | fuel + 1, e :: tl, st =>
      match resolveExpression fuel e st with
      | .ok st' => resolveExprList fuel tl st'
      | .error e => .error e

end

/-- `resolver.rs` `pub fn resolve`: run the resolver from an empty state
and surface the `ExprId → Depth` map on success. -/
def resolve (fuel : Nat) (statements : List Stmt) :
    Except Fault (List (Nat × Nat)) :=
  match resolveStatements fuel statements ⟨[], [], .none, .none⟩ with
  | .ok st => .ok st.depths
  | .error e => .error e


/-! ## Interpreter state (`interpreter.rs`, `environment.rs`, `classes.rs`)

`Rc<RefCell<Environment>>` and `Rc<RefCell<LoxInstance>>` become arenas in
the interpreter state; an `Rc` handle is an arena index.  `println!` output
is collected in `output`; the wall clock read by the native `clock` is the
`time` field. -/

/-- `environment.rs`: `Environment { enclosing, values }`. -/
structure EnvRec where
  enclosing : Option Nat
  values : List (String × Object)

/-- `classes.rs`: `LoxInstance { class, fields }`. -/
structure LoxInstanceRec where
  klass : LoxClass
  fields : List (String × Object)

structure InterpSt where
  scopes : List (Nat × Nat)
  envs : List EnvRec
  insts : List LoxInstanceRec
  globals : Nat
  environment : Nat
  output : List String
  time : ℚ

/-- `Environment::get`: walk `depth` enclosing links, then look the name up;
a missing link is the source's `.unwrap()` panic, a missing name is
`EnvironmentError("Undefined variable 'x'.")`. -/
def envGet (st : InterpSt) : Nat → Nat → String → Except Fault Object
  | envRef, 0, name =>
      match st.envs.get? envRef with
      | some e =>
          match lookupA e.values name with
          | some v => .ok v
          | none => .error (.err (.environmentError
              ("Undefined variable '" ++ name ++ "'.")))
      | none => .error .panic
  | envRef, depth + 1, name =>
      match st.envs.get? envRef with
      | some e =>
          match e.enclosing with
          | some r => envGet st r depth name
          | none => .error .panic
      | none => .error .panic

/-- `Environment::assign` / `assign_here`. -/
def envAssign (st : InterpSt) : Nat → Nat → String → Object → Except Fault InterpSt
  | envRef, 0, name, v =>
      match st.envs.get? envRef with
      | some e =>
          if (lookupA e.values name).isSome then
            .ok { st with
                    envs := st.envs.set envRef { e with values := insertA e.values name v } }
          else .error (.err (.environmentError
              ("Undefined variable '" ++ name ++ "'.")))
      | none => .error .panic
  | envRef, depth + 1, name, v =>
      match st.envs.get? envRef with
      | some e =>
          match e.enclosing with
          | some r => envAssign st r depth name v
          | none => .error .panic
      | none => .error .panic

/-- `Environment::define` on the record at `envRef`. -/
def envDefine (st : InterpSt) (envRef : Nat) (name : String) (v : Object) : InterpSt :=
  match st.envs.get? envRef with
  | some e =>
      { st with envs := st.envs.set envRef { e with values := insertA e.values name v } }
  | none => st

/-- Allocate a fresh environment record (`Rc::new(RefCell::new(..))`). -/
def allocEnv (st : InterpSt) (e : EnvRec) : Nat × InterpSt :=
  (st.envs.length, { st with envs := st.envs ++ [e] })

/-- Allocate a fresh instance (`Rc::new(RefCell::new(LoxInstance::new(..)))`). -/
def allocInst (st : InterpSt) (i : LoxInstanceRec) : Nat × InterpSt :=
  (st.insts.length, { st with insts := st.insts ++ [i] })

/-- `LoxFunction::bind`: a fresh environment defining `this`, enclosing the
original closure; the original function is not mutated. -/
def LoxFunction.bind (f : LoxFunction) (inst : Object) (st : InterpSt) :
    LoxFunction × InterpSt :=
  let (r, st') := allocEnv st ⟨some f.closure, [("this", inst)]⟩
  ({ f with closure := r }, st')

/-- Factor out the multiplicity of `p` (with fuel `n` itself). -/
def factorOut (p : Nat) : Nat → Nat → Nat × Nat
  | 0, n => (0, n)
  | fuel + 1, n =>
      if n ≠ 0 && n % p = 0 then
        let (c, r) := factorOut p fuel (n / p)
        (c + 1, r)
      else (0, n)

/-- The number of fractional decimal digits of `q`, when `q` has a finite
decimal expansion (every IEEE-754 double does: its denominator is a power
of two). -/
def decExponent (q : ℚ) : Option Nat :=
  let den := q.den
  let (a, r2) := factorOut 2 den den
  let (b, r5) := factorOut 5 r2 r2
  if r5 = 1 then some (max a b) else none

/-- Left-pad a digit string with zeros. -/
def padZeros (s : String) (width : Nat) : String :=
  String.mk (List.replicate (width - s.length) '0') ++ s

/-- Standard decimal digits of a natural number, most significant first
(fuel `n + 1` always suffices). -/
def natDigits : Nat → Nat → List Char
  | 0, _ => []
  | fuel + 1, n =>
      if n < 10 then [Char.ofNat (48 + n)]
      else natDigits fuel (n / 10) ++ [Char.ofNat (48 + n % 10)]

/-- Modelled standard-library behaviour: `Display` for integers. -/
def natToString (n : Nat) : String := String.mk (natDigits (n + 1) n)

/-- Modelled standard-library behaviour: `Display` for signed integers. -/
def intToString (i : Int) : String :=
  (if i < 0 then "-" else "") ++ natToString i.natAbs

/-- `impl Display for Object`, `Number` case: `fract() == 0.0` prints with
`{:.0}` (no decimals), otherwise default float formatting — modelled as the
exact decimal expansion, which exists for the value of every `f64`;
rationals without one cannot arise from a double and fall back to
`num/den`. -/
def numberDisplay (q : ℚ) : String :=
  if q.den = 1 then intToString q.num
  else
    match decExponent q with
    | some e =>
        let m := (q.num.natAbs * 10 ^ e) / q.den
        let sign := if q.num < 0 then "-" else ""
        sign ++ natToString (m / 10 ^ e) ++ "." ++ padZeros (natToString (m % 10 ^ e)) e
    | none => intToString q.num ++ "/" ++ natToString q.den

/-- `impl Display for Object`.  `Object::Function` prints via `{:?}`, which
dispatches to `impl Debug for dyn Function`, i.e. `<lox fn>` for every
function value. -/
def displayObject (st : InterpSt) : Object → String
  | .nil => "nil"
  | .number q => numberDisplay q
  | .boolean b => if b then "true" else "false"
  | .string s => s
  | .function _ => "<lox fn>"
  | .classObj c => c.name
  | .instanceObj r =>
      match st.insts.get? r with
      | some i => i.klass.name ++ " instance"
      | none => "invalid instance"

/-- `Interpreter::is_truthy`. -/
def isTruthy : Object → Bool
  | .nil => false
  | .boolean b => b
  | _ => true

/-- `Interpreter::cast_operands_to_numbers`. -/
def castOperandsToNumbers (st : InterpSt) (left right : Object) :
    Except Fault (ℚ × ℚ) :=
  match left, right with
  | .number a, .number b => .ok (a, b)
  | _, _ => .error (.err (.interpreterError
      ("Expected both operands to be numbers, but got '" ++
       displayObject st left ++ "' and '" ++ displayObject st right ++ "'")))

/-- `Interpreter::cast_operands_to_strings`. -/
def castOperandsToStrings (st : InterpSt) (left right : Object) :
    Except Fault (String × String) :=
  match left, right with
  | .string a, .string b => .ok (a, b)
  | _, _ => .error (.err (.interpreterError
      ("Expected both operands to be strings, but got '" ++
       displayObject st left ++ "' and '" ++ displayObject st right ++ "'")))

/-- `classes.rs` `LoxInstance::get`: fields first, then bound methods
(note the source's property message has no quotes around the name). -/
def LoxInstance.get (wrappingObject : Object) (name : String) (st : InterpSt) :
    Except Fault Object × InterpSt :=
  match wrappingObject with
  | .instanceObj r =>
      match st.insts.get? r with
      | some inst =>
          match lookupA inst.fields name with
          | some v => (.ok v, st)
          | none =>
              match inst.klass.findMethod name with
              | some m =>
                  let (bound, st') := m.bind wrappingObject st
                  (.ok (.function (.lox bound)), st')
              | none =>
                  (.error (.err (.interpreterError
                    ("Undefined property " ++ name ++ "."))), st)
      | none => (.error .panic, st)
  | _ => (.error (.err (.interpreterError "Only instances have fields.")), st)

/-- The `name_to_method` map of `Stmt::Class` execution: every method must
be a `Stmt::Function` (`unreachable!()` otherwise, signalled by `none`). -/
def buildMethods (methods : List Stmt) (methodEnv : Nat) :
    Option (List (String × LoxFunction)) :=
  methods.foldl
    (fun acc m =>
      match acc, m with
      | some ms, .function n ps b => some (insertA ms n ⟨ps, b, methodEnv, n = "init"⟩)
      | _, _ => none)
    (some [])


/-! ## Interpreter evaluation (`interpreter.rs`, `functions.rs`)

All functions thread the state explicitly (the `&mut self` of the Rust
code) and return it alongside the `Result`; recursion is fueled.  The
`unreachable!()` arms — including the missing `EqualEqual`/`BangEqual`
cases of `binary_expression` — are the `panic` outcome. -/

mutual

def evaluate : Nat → Expr → InterpSt → Except Fault Object × InterpSt
  | 0, _, st => (.error .fuelOut, st)
  | fuel + 1, expr, st =>
      match expr with
      | .nil => (.ok .nil, st)
      | .boolean b => (.ok (.boolean b), st)
      | .string s => (.ok (.string s), st)
      | .number n => (.ok (.number n), st)
      | .grouping e => evaluate fuel e st
      | .unary tokenType right => unaryExpression fuel tokenType right st
      | .binary left tokenType right => binaryExpression fuel left tokenType right st
      | .variable id name =>
          (match lookupN st.scopes id with
           | some depth => envGet st st.environment depth name
           | none => envGet st st.globals 0 name, st)
      | .thisE id keyword =>
          (match lookupN st.scopes id with
           | some depth => envGet st st.environment depth keyword
           | none => envGet st st.globals 0 keyword, st)
      | .superE id keyword methodName =>
          match lookupN st.scopes id with
          | none => (.error .panic, st)
          | some depth =>
              match envGet st st.environment depth keyword with
              | .error e => (.error e, st)
              | .ok superclassObj =>
                  if depth = 0 then (.error .panic, st)
                  else
                    match envGet st st.environment (depth - 1) "this" with
                    | .error e => (.error e, st)
                    | .ok superobject =>
                        match superclassObj with
                        | .classObj superclass =>
                            match superclass.findMethod methodName with
                            | some m =>
                                let (bound, st') := m.bind superobject st
                                (.ok (.function (.lox bound)), st')
                            | none =>
                                (.error (.err (.interpreterError
                                  ("Undefined property '" ++ methodName ++ "'."))), st)
                        | _ => (.error .panic, st)
      | .assign id name value =>
          match evaluate fuel value st with
          | (.ok v, st1) =>
              (match lookupN st1.scopes id with
               | some depth =>
                   match envAssign st1 st1.environment depth name v with
                   | .ok st2 => (.ok v, st2)
                   | .error e => (.error e, st1)
               | none =>
                   match envAssign st1 st1.globals 0 name v with
                   | .ok st2 => (.ok v, st2)
                   | .error e => (.error e, st1))
          | (.error e, st1) => (.error e, st1)
      | .logical left operator right =>
          match evaluate fuel left st with
          | (.ok l, st1) =>
              if operator = .orKw then
                if isTruthy l then (.ok l, st1) else evaluate fuel right st1
              else
                if !isTruthy l then (.ok l, st1) else evaluate fuel right st1
          | (.error e, st1) => (.error e, st1)
      | .call callee arguments => callExpression fuel callee arguments st
      | .get object name =>
          match evaluate fuel object st with
          | (.ok o, st1) => LoxInstance.get o name st1
          | (.error e, st1) => (.error e, st1)
      | .set object name value =>
          match evaluate fuel object st with
          | (.ok o, st1) =>
              match evaluate fuel value st1 with
              | (.ok v, st2) =>
                  (match o with
                   | .instanceObj r =>
                       match st2.insts.get? r with
                       | some inst =>
                           (.ok .nil,
                            { st2 with insts := st2.insts.set r { inst with fields := insertA inst.fields name v } })
                       | none => (.error .panic, st2)
                   | _ =>
                       (.error (.err (.interpreterError "Only instances have fields.")), st2))
              | (.error e, st2) => (.error e, st2)
          | (.error e, st1) => (.error e, st1)

def unaryExpression : Nat → TokenType → Expr → InterpSt → Except Fault Object × InterpSt
  | 0, _, _, st => (.error .fuelOut, st)
  | fuel + 1, tokenType, expr, st =>
      match evaluate fuel expr st with
      | (.ok right, st1) =>
          (match tokenType with
           | .minus =>
               match right with
               | .number num => (.ok (.number (-num)), st1)
               | _ =>
                   (.error (.err (.interpreterError
                     ("Operand must be a number, but got '" ++
                      displayObject st1 right ++ "'"))), st1)
           | .bang => (.ok (.boolean (!isTruthy right)), st1)
           | _ => (.error .panic, st1))
      | (.error e, st1) => (.error e, st1)

def binaryExpression : Nat → Expr → TokenType → Expr → InterpSt →
    Except Fault Object × InterpSt
  | 0, _, _, _, st => (.error .fuelOut, st)
  | fuel + 1, left, tokenType, right, st =>
      match evaluate fuel left st with
      | (.error e, st1) => (.error e, st1)
      | (.ok l, st1) =>
          match evaluate fuel right st1 with
          | (.error e, st2) => (.error e, st2)
          | (.ok r, st2) =>
              match tokenType with
              | .star =>
                  (match castOperandsToNumbers st2 l r with
                   | .ok (a, b) => (.ok (.number (a * b)), st2)
                   | .error e => (.error e, st2))
              | .minus =>
                  (match castOperandsToNumbers st2 l r with
                   | .ok (a, b) => (.ok (.number (a - b)), st2)
                   | .error e => (.error e, st2))
              | .slash =>
                  (match castOperandsToNumbers st2 l r with
                   | .ok (a, b) => (.ok (.number (a / b)), st2)
                   | .error e => (.error e, st2))
              | .plus =>
                  (match castOperandsToNumbers st2 l r with
                   | .ok (a, b) => (.ok (.number (a + b)), st2)
                   | .error _ =>
                       match castOperandsToStrings st2 l r with
                       | .ok (a, b) => (.ok (.string (a ++ b)), st2)
                       | .error _ =>
                           (.error (.err (.interpreterError
                             ("The '+' operator requires either 2 numbers or 2 strings, but got '" ++
                              displayObject st2 l ++ "' and '" ++
                              displayObject st2 r ++ "'"))), st2))
              | .lessEqual =>
                  (match castOperandsToNumbers st2 l r with
                   | .ok (a, b) => (.ok (.boolean (decide (a ≤ b))), st2)
                   | .error e => (.error e, st2))
              | .less =>
                  (match castOperandsToNumbers st2 l r with
                   | .ok (a, b) => (.ok (.boolean (decide (a < b))), st2)
                   | .error e => (.error e, st2))
              | .greaterEqual =>
                  (match castOperandsToNumbers st2 l r with
                   | .ok (a, b) => (.ok (.boolean (decide (b ≤ a))), st2)
                   | .error e => (.error e, st2))
              | .greater =>
                  (match castOperandsToNumbers st2 l r with
                   | .ok (a, b) => (.ok (.boolean (decide (b < a))), st2)
                   | .error e => (.error e, st2))
              | _ => (.error .panic, st2)

def callExpression : Nat → Expr → List Expr → InterpSt → Except Fault Object × InterpSt
  | 0, _, _, st => (.error .fuelOut, st)
  | fuel + 1, callee, arguments, st =>
      match evaluate fuel callee st with
      | (.error e, st1) => (.error e, st1)
      | (.ok calleeV, st1) =>
          match evalArgs fuel arguments st1 [] with
          | (.error e, st2) => (.error e, st2)
          | (.ok args, st2) => callCallee fuel calleeV args st2

def evalArgs : Nat → List Expr → InterpSt → List Object →
    Except Fault (List Object) × InterpSt
  | 0, _, st, _ => (.error .fuelOut, st)
  | _ + 1, [], st, acc => (.ok acc.reverse, st)
  | fuel + 1, e :: tl, st, acc =>
      match evaluate fuel e st with
      | (.ok v, st1) => evalArgs fuel tl st1 (v :: acc)
      | (.error er, st1) => (.error er, st1)

/-- The match on the evaluated callee in `Interpreter::call_expression`:
functions dispatch through the `Function` trait; classes construct a fresh
instance, run a bound `init` when one is found (discarding its result),
and yield the instance. -/
def callCallee : Nat → Object → List Object → InterpSt → Except Fault Object × InterpSt
  | 0, _, _, st => (.error .fuelOut, st)
  | fuel + 1, calleeV, args, st =>
      match calleeV with
      | .function f => Func.call fuel f args st
      | .classObj cls =>
          let (r, st1) := allocInst st ⟨cls, []⟩
          match cls.findMethod "init" with
          | some constructor =>
              let (bound, st2) := constructor.bind (.instanceObj r) st1
              (match LoxFunction.call fuel bound args st2 with
               | (.ok _, st3) => (.ok (.instanceObj r), st3)
               | (.error e, st3) => (.error e, st3))
          | none => (.ok (.instanceObj r), st1)
      | _ => (.error (.err (.interpreterError "Can only call functions and classes.")), st)

/-- `Function::call` dispatch: the native `Clock` returns the wall clock
(it never checks its arity); user functions go through
`LoxFunction::call`. -/
def Func.call : Nat → Func → List Object → InterpSt → Except Fault Object × InterpSt
  | 0, _, _, st => (.error .fuelOut, st)
  | _ + 1, .clock, _, st => (.ok (.number st.time), st)
  | fuel + 1, .lox f, args, st => LoxFunction.call fuel f args st

/-- `functions.rs` `LoxFunction::call`: arity check, parameter binding in a
fresh scope enclosing the closure, body execution, and the
initializer/return-signal handling. -/
def LoxFunction.call : Nat → LoxFunction → List Object → InterpSt →
    Except Fault Object × InterpSt
  | 0, _, _, st => (.error .fuelOut, st)
  | fuel + 1, f, args, st =>
      if f.parameters.length ≠ args.length then
        (.error (.err (.interpreterError
          ("Expected " ++ toString f.parameters.length ++ " arguments but got " ++
           toString args.length ++ "."))), st)
      else
        let values := (f.parameters.zip args).foldl (fun vs p => insertA vs p.1 p.2) []
        let (envRef, st1) := allocEnv st ⟨some f.closure, values⟩
        match executeBlock fuel f.body envRef st1 with
        | (.ok (), st2) =>
            if f.isInitializer then (envGet st2 f.closure 0 "this", st2)
            else (.ok .nil, st2)
        | (.error (.err (.ret value)), st2) =>
            if f.isInitializer then (envGet st2 f.closure 0 "this", st2)
            else (.ok value, st2)
        | (.error e, st2) => (.error e, st2)

/-- `Interpreter::execute_block`: remember the current environment, switch
to the given one, and restore on every exit (the trailing assignment on
success, the `map_err` closure on any error, including the return
signal). -/
def executeBlock : Nat → List Stmt → Nat → InterpSt → Except Fault Unit × InterpSt
  | 0, _, _, st => (.error .fuelOut, st)
  | fuel + 1, statements, envRef, st =>
      let previous := st.environment
      executeBlockGo fuel previous statements { st with environment := envRef }

def executeBlockGo : Nat → Nat → List Stmt → InterpSt → Except Fault Unit × InterpSt
  | 0, _, _, st => (.error .fuelOut, st)
  | _ + 1, previous, [], st => (.ok (), { st with environment := previous })
  | fuel + 1, previous, s :: tl, st =>
      match execute fuel s st with
      | (.ok (), st1) => executeBlockGo fuel previous tl st1
      | (.error e, st1) => (.error e, { st1 with environment := previous })

def execute : Nat → Stmt → InterpSt → Except Fault Unit × InterpSt
  | 0, _, st => (.error .fuelOut, st)
  | fuel + 1, stmt, st =>
      match stmt with
      | .print expression =>
          match evaluate fuel expression st with
          | (.ok v, st1) =>
              (.ok (), { st1 with output := st1.output ++ [displayObject st1 v] })
          | (.error e, st1) => (.error e, st1)
      | .expression expression =>
          match evaluate fuel expression st with
          | (.ok _, st1) => (.ok (), st1)
          | (.error e, st1) => (.error e, st1)
      | .var name initializer =>
          match (match initializer with
                 | some e => evaluate fuel e st
                 | none => (.ok Object.nil, st)) with
          | (.ok v, st1) => (.ok (), envDefine st1 st1.environment name v)
          | (.error e, st1) => (.error e, st1)
      | .block statements =>
          let (envRef, st1) := allocEnv st ⟨some st.environment, []⟩
          executeBlock fuel statements envRef st1
      | .ifS condition thenBranch elseBranch =>
          match evaluate fuel condition st with
          | (.ok c, st1) =>
              if isTruthy c then execute fuel thenBranch st1
              else
                match elseBranch with
                | some s => execute fuel s st1
                | none => (.ok (), st1)
          | (.error e, st1) => (.error e, st1)
      | .whileS condition body =>
          match evaluate fuel condition st with
          | (.ok c, st1) => whileLoop fuel condition body c st1
          | (.error e, st1) => (.error e, st1)
      | .function name parameters body =>
          let f : LoxFunction := ⟨parameters, body, st.environment, false⟩
          (.ok (), envDefine st st.environment name (.function (.lox f)))
      | .ret value =>
          match (match value with
                 | some v => evaluate fuel v st
                 | none => (.ok Object.nil, st)) with
          | (.ok v, st1) => (.error (.err (.ret v)), st1)
          | (.error e, st1) => (.error e, st1)
      | .classS name superclass methods =>
          let super : Except Fault (Option (Object × LoxClass)) × InterpSt :=
            match superclass with
            | some sc =>
                (match evaluate fuel sc st with
                 | (.ok sobj, st1) =>
                     match sobj with
                     | .classObj scls => (.ok (some (sobj, scls)), st1)
                     | _ =>
                         (.error (.err (.interpreterError "Superclass must be a class")), st1)
                 | (.error e, st1) => (.error e, st1))
            | none => (.ok none, st)
          match super with
          | (.error e, st1) => (.error e, st1)
          | (.ok supInfo, st1) =>
              let (methodEnv, st2) :=
                match supInfo with
                | some (sobj, _) => allocEnv st1 ⟨some st1.environment, [("super", sobj)]⟩
                | none => (st1.environment, st1)
              match buildMethods methods methodEnv with
              | some ms =>
                  let cls := LoxClass.mk name (supInfo.map Prod.snd) ms
                  (.ok (), envDefine st2 st2.environment name (.classObj cls))
              | none => (.error .panic, st2)

def whileLoop : Nat → Expr → Stmt → Object → InterpSt → Except Fault Unit × InterpSt
  | 0, _, _, _, st => (.error .fuelOut, st)
  | fuel + 1, condition, body, c, st =>
      if isTruthy c then
        match execute fuel body st with
        | (.ok (), st1) =>
            match evaluate fuel condition st1 with
            | (.ok c', st2) => whileLoop fuel condition body c' st2
            | (.error e, st2) => (.error e, st2)
        | (.error e, st1) => (.error e, st1)
      else (.ok (), st)

end

/-- `Interpreter::interpret`: execute the statements in order, stopping at
the first fault. -/
def interpret : Nat → List Stmt → InterpSt → Except Fault Unit × InterpSt
  | 0, _, st => (.error .fuelOut, st)
  | _ + 1, [], st => (.ok (), st)
  | fuel + 1, s :: tl, st =>
      match execute fuel s st with
      | (.ok (), st1) => interpret fuel tl st1
      | (.error e, st1) => (.error e, st1)

/-- `Interpreter::new`: a single global environment binding the native
`clock`.  The wall clock read by `clock` is the `time` parameter. -/
def initialState (time : ℚ) : InterpSt :=
  { scopes := [], envs := [⟨none, [("clock", .function .clock)]⟩], insts := [],
    globals := 0, environment := 0, output := [], time := time }

/-- `Interpreter::add_scopes`. -/
def addScopes (st : InterpSt) (scopes : List (Nat × Nat)) : InterpSt :=
  { st with scopes := scopes.foldl (fun m kv => insertN m kv.1 kv.2) st.scopes }


/-! ## Round trip (spec §8)

Display a runtime value, lex the text, parse it as an expression
(`Parser::expression`), and evaluate the result in a fresh interpreter. -/

def roundTrip (fuel : Nat) (v : Object) : Except Fault Object :=
  let text := displayObject (initialState 0) v
  match lex fuel text with
  | .error .panic => .error .panic
  | .error .fuelOut => .error .fuelOut
  | .ok (tokens, _) =>
      match expression fuel ⟨tokens, 0⟩ with
      | (.ok e, _) => (evaluate fuel e (initialState 0)).1
      | (.error f, _) => .error f

/-! ## Concrete programs used in the claim theorems -/

/-- Tokens of `1 != 2;`. -/
def neqTokens : List Token :=
  [⟨.number 1, "1", 1⟩, ⟨.bangEqual, "!=", 1⟩, ⟨.number 2, "2", 1⟩,
   ⟨.semicolon, ";", 1⟩, ⟨.eof, "", 1⟩]

/-- The statement `1 != 2;` parses to. -/
def neqStmt : Stmt := .expression (.binary (.number 1) .bangEqual (.number 2))

/-- Tokens of `1 == 2;`. -/
def eqeqTokens : List Token :=
  [⟨.number 1, "1", 1⟩, ⟨.equalEqual, "==", 1⟩, ⟨.number 2, "2", 1⟩,
   ⟨.semicolon, ";", 1⟩, ⟨.eof, "", 1⟩]

/-- Tokens of `{ var a = a; }`. -/
def selfInitTokens : List Token :=
  [⟨.leftBrace, "\x7b", 1⟩, ⟨.varKw, "var", 1⟩, ⟨.identifier, "a", 1⟩,
   ⟨.equal, "=", 1⟩, ⟨.identifier, "a", 1⟩, ⟨.semicolon, ";", 1⟩,
   ⟨.rightBrace, "\x7d", 1⟩, ⟨.eof, "", 1⟩]

/-- The statement `{ var a = a; }` parses to: the initializer reads the
variable being declared (`ExprId` 0). -/
def selfInitStmt : Stmt := .block [.var "a" (some (.variable 0 "a"))]



/-- Tokens of `print clock(42);`. -/
def clockCallTokens : List Token :=
  [⟨.printKw, "print", 1⟩, ⟨.identifier, "clock", 1⟩, ⟨.leftParen, "(", 1⟩,
   ⟨.number 42, "42", 1⟩, ⟨.rightParen, ")", 1⟩, ⟨.semicolon, ";", 1⟩,
   ⟨.eof, "", 1⟩]

/-- The statement `print clock(42);` parses to. -/
def clockCallStmt : Stmt := .print (.call (.variable 0 "clock") [.number 42])

/-- A class whose `init` takes no parameters and executes a bare
`return;` — `class C { init() { return; } }` as built by `Stmt::Class`
execution with the global scope as method environment. -/
def bareReturnInitClass : LoxClass :=
  .mk "C" none [("init", ⟨[], [.ret none], 0, true⟩)]


/-- The result of binding `bareReturnInitClass`'s `init` to the fresh
instance: closure points at the `this` environment (arena index 1). -/
def c7BoundInit : LoxFunction := ⟨[], [.ret none], 1, true⟩

/-- Interpreter state right after allocating the fresh instance and the
bound closure for a call of `bareReturnInitClass`. -/
def c7BindState : InterpSt :=
  { scopes := [],
    envs := [⟨none, [("clock", .function .clock)]⟩,
             ⟨some 0, [("this", .instanceObj 0)]⟩],
    insts := [⟨bareReturnInitClass, []⟩],
    globals := 0, environment := 0, output := [], time := 0 }

/-- State after the initializer body ran (its parameter scope, arena
index 2, was allocated; the current environment was restored). -/
def c7FinalState : InterpSt :=
  { c7BindState with envs := c7BindState.envs ++ [⟨some 1, []⟩] }


/-- A rational with a finite decimal expansion — the denominator divides a
power of ten, as decided by the display code's own `decExponent`.  The
exact value of every IEEE-754 double is such a rational. -/
def IsFiniteDecimal (q : ℚ) : Prop := (decExponent q).isSome = true

/-! ## Claim theorems -/

/-- C1: the claim says `==` and `!=` parse to Binary nodes whose evaluation
is structural (in)equality.  In the code, `Parser::equality` matches
`BangEqual | LessEqual` — never `EqualEqual` — so `1 == 2;` is a parse
error; and `Interpreter::binary_expression` has no equality arm at all, so
the Binary `!=` node that the parser does produce evaluates into
`unreachable!()` (a panic) instead of a Boolean. -/
theorem C1_equality_unreachable :
    lex 99 "1 != 2;" = .ok (neqTokens, []) ∧
    parse 99 neqTokens = .ok ([neqStmt], []) ∧
    resolve 99 [neqStmt] = .ok [] ∧
    (interpret 99 [neqStmt] (initialState 0)).1 = .error .panic ∧
    lex 99 "1 == 2;" = .ok (eqeqTokens, []) ∧
    parse 99 eqeqTokens = .ok ([.expression (.number 2)],
      [.parserError (some 1) "Expect ';' after expression."]) :=
  ⟨rfl, rfl, rfl, rfl, rfl, rfl⟩

/-- C2: resolver soundness is violated.  `{ var a = a; }` is accepted by
the resolver (which defines `a` before resolving the initializer and
records depth 0 for the initializer's read of `a`), yet at runtime the
interpreter evaluates the initializer before defining `a`, so the lookup
at the recorded depth 0 reports `Undefined variable 'a'.`. -/
theorem C2_resolver_soundness_violated :
    lex 99 "\x7b var a = a; \x7d" = .ok (selfInitTokens, []) ∧
    parse 99 selfInitTokens = .ok ([selfInitStmt], []) ∧
    resolve 99 [selfInitStmt] = .ok [(0, 0)] ∧
    (interpret 99 [selfInitStmt] (addScopes (initialState 0) [(0, 0)])).1 =
      .error (.err (.environmentError "Undefined variable 'a'.")) :=
  ⟨rfl, rfl, rfl, rfl⟩

/-- C3: the claim says `lex` delivers `LexerError(line, "Unterminated
string")` to the caller.  The code constructs that error in
`Lexer::string`, but `Lexer::next` discards every `Err` coming from a
token-type constructor (`if token_type.is_err() { return self.next(); }`),
so lexing an unterminated string yields an empty error list. -/
theorem C3_unterminated_string_error_dropped :
    lex 99 "\"abc" = .ok ([⟨.eof, "", 1⟩], []) :=
  rfl

/-- C4: the claim says `{ var a = a; }` aborts resolution with
`ResolverError "Cannot read local variable in its own initializer"`.  The
code resolves it successfully and produces a depth map: `Stmt::Var`
handling calls `declare` and `define` back to back before resolving the
initializer, so no name is ever in the declared-but-not-defined state and
the check (whose message is also misspelled `"...in ints own initializer"`)
is unreachable. -/
theorem C4_self_initializer_accepted :
    lex 99 "\x7b var a = a; \x7d" = .ok (selfInitTokens, []) ∧
    parse 99 selfInitTokens = .ok ([selfInitStmt], []) ∧
    resolve 99 [selfInitStmt] = .ok [(0, 0)] :=
  ⟨rfl, rfl, rfl⟩

/-- C5: the claim says a fractional literal followed by further characters
(e.g. `1.5;`) lexes to its Number token and lexing resumes right after the
literal.  `Lexer::number` passes the absolute source position of the `.`
to `Iterator::nth`, which treats it as a relative index: on `1.5;` it
consumes through the `;`, slices the lexeme `"1.5;"`, and panics on
`"1.5;".parse::<f64>().unwrap()`.  The same literal not followed by
further characters lexes fine, which isolates the bug to the claim's
situation. -/
theorem C5_fractional_literal_panics :
    lex 99 "1.5;" = .error .panic ∧
    lex 99 "1.5" = .ok ([⟨.number (mkRat 3 2), "1.5", 1⟩, ⟨.eof, "", 1⟩], []) :=
  ⟨rfl, rfl⟩


/-- Helper for C8: every exit of the `execute_block` statement loop other
than fuel exhaustion at this level leaves `environment` equal to the saved
`previous` scope. -/
theorem executeBlockGo_environment (fuel : Nat) :
    ∀ (previous : Nat) (l : List Stmt) (st : InterpSt) (r : Except Fault Unit)
      (st' : InterpSt),
      executeBlockGo fuel previous l st = (r, st') → r ≠ .error .fuelOut →
      st'.environment = previous := by
  induction fuel with
  | zero =>
      intro prev l st r st' h hne
      cases h
      exact absurd rfl hne
  | succ fuel ih =>
      intro prev l st r st' h hne
      cases l with
      | nil =>
          cases h
          rfl
      | cons s tl =>
          simp only [executeBlockGo] at h
          split at h
          · exact ih prev tl _ r st' h hne
          · cases h
            rfl

/-- C8: `Interpreter::execute_block` restores the previous `current`
environment on every exit path — normal completion, any propagating error,
and the return unwind (which travels the same error channel).  The only
excluded outcome is fuel exhaustion, which models the Rust loop not
exiting at all. -/
theorem C8_block_restores_environment (fuel : Nat) (statements : List Stmt)
    (envRef : Nat) (st : InterpSt) (r : Except Fault Unit) (st' : InterpSt)
    (h : executeBlock fuel statements envRef st = (r, st'))
    (hr : r ≠ .error .fuelOut) :
    st'.environment = st.environment := by
  cases fuel with
  | zero =>
      cases h
      exact absurd rfl hr
  | succ fuel =>
      exact executeBlockGo_environment fuel st.environment statements _ r st' h hr

/-- C8 witness: a concrete block execution (declaring a variable inside a
fresh child scope) hands control back with the pre-block environment
restored. -/
theorem C8_block_restores_environment_witness :
    ((executeBlock 9 [Stmt.var "x" (some (Expr.number 5))] 1
        ((allocEnv (initialState 0) ⟨some 0, []⟩).2)).2).environment =
      ((allocEnv (initialState 0) ⟨some 0, []⟩).2).environment :=
  C8_block_restores_environment 9 [Stmt.var "x" (some (Expr.number 5))] 1
    ((allocEnv (initialState 0) ⟨some 0, []⟩).2) _ _ rfl (fun hh => nomatch hh)

/-- C10: a completed `Assign` expression evaluates to the value just
stored (the value of `e`), while a completed `Set` expression on an
instance field evaluates to `Nil`. -/
theorem C10_assign_evaluates_to_value :
    (∀ (fuel : Nat) (id : ExprId) (name : String) (e : Expr) (st : InterpSt)
       (v : Object) (st' : InterpSt),
       evaluate (fuel + 1) (.assign id name e) st = (.ok v, st') →
       ∃ st₁, evaluate fuel e st = (.ok v, st₁)) ∧
    (∀ (fuel : Nat) (object : Expr) (name : String) (value : Expr)
       (st : InterpSt) (w : Object) (st' : InterpSt),
       evaluate (fuel + 1) (.set object name value) st = (.ok w, st') →
       w = .nil) := by
  constructor
  · intro fuel id name e st v st' h
    simp only [evaluate] at h
    split at h
    · rename_i v' st₁ he
      refine ⟨st₁, ?_⟩
      split at h
      · split at h
        · cases h
          exact he
        · cases h
      · split at h
        · cases h
          exact he
        · cases h
    · cases h
  · intro fuel object name value st w st' h
    simp only [evaluate] at h
    split at h
    · split at h
      · split at h
        · split at h
          · cases h
            rfl
          · cases h
        · cases h
      · cases h
    · cases h

/-- C10 witness: assigning `7` to a defined global `x` evaluates to `7`
(and in particular not `Nil`). -/
theorem C10_assign_evaluates_to_value_witness :
    ∃ st₁, evaluate 1 (Expr.number 7) (envDefine (initialState 0) 0 "x" (.number 1)) =
      (.ok (.number 7), st₁) :=
  C10_assign_evaluates_to_value.1 1 5 "x" (Expr.number 7)
    (envDefine (initialState 0) 0 "x" (.number 1)) (.number 7) _ rfl


/-- C6 counterexample: the native `clock` has arity 0, yet calling it with
one argument raises no error and runs the native body — the arity check
lives only in `LoxFunction::call`, and `Clock::call` never consults
`arity()`.  `print clock(42);` completes and prints the clock value. -/
theorem C6_clock_arity_unchecked :
    lex 99 "print clock(42);" = .ok (clockCallTokens, []) ∧
    parse 99 clockCallTokens = .ok ([clockCallStmt], []) ∧
    resolve 99 [clockCallStmt] = .ok [] ∧
    interpret 99 [clockCallStmt] (initialState 0) =
      (.ok (), { initialState 0 with output := ["0"] }) :=
  ⟨rfl, rfl, rfl, rfl⟩

/-- C6 (amended): arity is enforced, with the message
`Expected N arguments but got M.`, for user functions and for classes
whose `init` is found — and in both cases the callee's body is never
executed: the user-function call returns with the state untouched, and the
class call returns having only allocated the fresh instance and the bound
closure (no output, no environment change). -/
theorem C6_arity_enforced :
    (∀ (fuel : Nat) (f : LoxFunction) (args : List Object) (st : InterpSt),
       f.parameters.length ≠ args.length →
       LoxFunction.call (fuel + 1) f args st =
         (.error (.err (.interpreterError
           ("Expected " ++ toString f.parameters.length ++ " arguments but got " ++
            toString args.length ++ "."))), st)) ∧
    (∀ (fuel : Nat) (cls : LoxClass) (m : LoxFunction) (args : List Object)
       (st : InterpSt),
       cls.findMethod "init" = some m →
       m.parameters.length ≠ args.length →
       callCallee (fuel + 2) (.classObj cls) args st =
         (.error (.err (.interpreterError
           ("Expected " ++ toString m.parameters.length ++ " arguments but got " ++
            toString args.length ++ "."))),
          { st with
              insts := st.insts ++ [⟨cls, []⟩],
              envs := st.envs ++
                [⟨some m.closure, [("this", .instanceObj st.insts.length)]⟩] })) := by
  constructor
  · intro fuel f args st h
    simp only [LoxFunction.call, if_pos h]
  · intro fuel cls m args st hm hne
    simp only [callCallee, allocInst]
    rw [hm]
    simp only [LoxFunction.bind, allocEnv, LoxFunction.call, if_pos hne]

/-- C6 witness: a user function of arity 1 called with no arguments, and a
class whose `init` has arity 1 called with no arguments, both report
`Expected 1 arguments but got 0.` without executing the body. -/
theorem C6_arity_enforced_witness :
    LoxFunction.call 1 ⟨["n"], [], 0, false⟩ [] (initialState 0) =
      (.error (.err (.interpreterError "Expected 1 arguments but got 0.")),
       initialState 0) ∧
    callCallee 2 (.classObj (.mk "P" none [("init", ⟨["n"], [], 0, true⟩)])) []
        (initialState 0) =
      (.error (.err (.interpreterError "Expected 1 arguments but got 0.")),
       { initialState 0 with
           insts := [⟨.mk "P" none [("init", ⟨["n"], [], 0, true⟩)], []⟩],
           envs := (initialState 0).envs ++ [⟨some 0, [("this", .instanceObj 0)]⟩] }) :=
  ⟨C6_arity_enforced.1 0 ⟨["n"], [], 0, false⟩ [] (initialState 0) (by decide),
   C6_arity_enforced.2 0 (.mk "P" none [("init", ⟨["n"], [], 0, true⟩)])
     ⟨["n"], [], 0, true⟩ [] (initialState 0) rfl (by decide)⟩

/-- C7: calling a class constructs a fresh instance of it (the next
instance-arena slot); when an `init` method is found (own or inherited) it
is called bound to that new instance with the supplied arguments, and the
call expression evaluates to the same instance whatever value the
initializer call produced; and at the function level an initializer body
that unwinds with a `return` signal yields the closure's `this` binding,
never the carried value. -/
theorem C7_initializer_identity :
    (∀ (fuel : Nat) (cls : LoxClass) (args : List Object) (st : InterpSt),
       cls.findMethod "init" = none →
       callCallee (fuel + 1) (.classObj cls) args st =
         (.ok (.instanceObj st.insts.length),
          { st with insts := st.insts ++ [⟨cls, []⟩] })) ∧
    (∀ (fuel : Nat) (cls : LoxClass) (args : List Object) (st : InterpSt)
       (m : LoxFunction) (v : Object) (st' : InterpSt),
       cls.findMethod "init" = some m →
       LoxFunction.call fuel
         ((m.bind (.instanceObj st.insts.length)
             { st with insts := st.insts ++ [⟨cls, []⟩] }).1)
         args
         ((m.bind (.instanceObj st.insts.length)
             { st with insts := st.insts ++ [⟨cls, []⟩] }).2) = (.ok v, st') →
       callCallee (fuel + 1) (.classObj cls) args st =
         (.ok (.instanceObj st.insts.length), st')) ∧
    (∀ (fuel : Nat) (f : LoxFunction) (args : List Object) (st : InterpSt)
       (v : Object) (st₂ : InterpSt),
       f.isInitializer = true →
       f.parameters.length = args.length →
       executeBlock fuel f.body st.envs.length
         { st with envs := st.envs ++ [⟨some f.closure,
             (f.parameters.zip args).foldl (fun vs p => insertA vs p.1 p.2) []⟩] } =
         (.error (.err (.ret v)), st₂) →
       LoxFunction.call (fuel + 1) f args st = (envGet st₂ f.closure 0 "this", st₂)) := by
  refine ⟨?_, ?_, ?_⟩
  · intro fuel cls args st h
    simp only [callCallee, allocInst]
    rw [h]
  · intro fuel cls args st m v st' hm hc
    simp only [callCallee, allocInst, hm]
    rw [hc]
  · intro fuel f args st v st₂ hinit harity hblock
    have hne : ¬f.parameters.length ≠ args.length := fun hcon => hcon harity
    simp only [LoxFunction.call, allocEnv, if_neg hne]
    rw [hblock, hinit]
    simp


/-- C7 witness: calling a class without `init` yields the fresh instance;
calling `class C { init() { return; } }` yields the same fresh instance
even though `init` exits through a bare `return`; and the bound
initializer call itself returns the closure's `this`. -/
theorem C7_initializer_identity_witness :
    callCallee 1 (.classObj (.mk "Foo" none [])) [] (initialState 0) =
      (.ok (.instanceObj 0),
       { initialState 0 with insts := [⟨.mk "Foo" none [], []⟩] }) ∧
    callCallee 10 (.classObj bareReturnInitClass) [] (initialState 0) =
      (.ok (.instanceObj 0), c7FinalState) ∧
    LoxFunction.call 9 c7BoundInit [] c7BindState =
      (envGet c7FinalState 1 0 "this", c7FinalState) :=
  ⟨C7_initializer_identity.1 0 (.mk "Foo" none []) [] (initialState 0) rfl,
   C7_initializer_identity.2.1 9 bareReturnInitClass [] (initialState 0)
     ⟨[], [.ret none], 0, true⟩ (.instanceObj 0) c7FinalState rfl rfl,
   C7_initializer_identity.2.2 8 c7BoundInit [] c7BindState .nil c7FinalState
     rfl rfl rfl⟩


/-! ### Character and digit-string lemmas for the round-trip proof -/

theorem char_isDigit_iff (c : Char) : c.isDigit = true ↔ 48 ≤ c.toNat ∧ c.toNat ≤ 57 := by
  have h1 : ∀ a b : UInt32, (a ≤ b) = (a.toNat ≤ b.toNat) :=
    fun a b => propext ⟨fun h => h, fun h => h⟩
  simp [Char.isDigit, Char.le_def, Char.toNat, h1]
  norm_num [UInt32.size]

theorem charOfNat_toNat (n : Nat) (h : n < 55296) : (Char.ofNat n).toNat = n := by
  simp [Char.ofNat, Nat.isValidChar, Char.toNat, h]
  simp [Char.ofNatAux, UInt32.toNat, UInt32.ofNatCore]

theorem digit_char_isDigit (d : Nat) (h : d < 10) : (Char.ofNat (48 + d)).isDigit = true := by
  rw [char_isDigit_iff, charOfNat_toNat _ (by omega)]
  omega

theorem digit_ne (c x : Char) (hd : c.isDigit = true)
    (hx : x.toNat < 48 ∨ 57 < x.toNat) : c ≠ x := by
  intro h
  subst h
  rw [char_isDigit_iff] at hd
  omega

theorem digitsVal_append_singleton (l : List Char) (c : Char) :
    digitsVal (l ++ [c]) = 10 * digitsVal l + (c.toNat - 48) := by
  simp [digitsVal, List.foldl_append]
  ring

theorem digitsVal_replicate_zero (k : Nat) (l : List Char) :
    digitsVal (List.replicate k '0' ++ l) = digitsVal l := by
  induction k with
  | zero => simp
  | succ k ih =>
      simpa [digitsVal, List.replicate_succ] using ih

theorem natDigits_all_digits (fuel : Nat) :
    ∀ n c, c ∈ natDigits fuel n → c.isDigit = true := by
  induction fuel with
  | zero => intro n c h; cases h
  | succ fuel ih =>
      intro n c h
      by_cases hn : n < 10
      · simp [natDigits, hn] at h
        subst h
        exact digit_char_isDigit n hn
      · simp [natDigits, hn] at h
        rcases h with h | h
        · exact ih _ _ h
        · subst h
          exact digit_char_isDigit _ (Nat.mod_lt _ (by omega))

theorem digitsVal_natDigits (fuel : Nat) :
    ∀ n, n < fuel → digitsVal (natDigits fuel n) = n := by
  induction fuel with
  | zero => intro n h; omega
  | succ fuel ih =>
      intro n h
      by_cases hn : n < 10
      · simp [natDigits, hn, digitsVal, charOfNat_toNat (48 + n) (by omega)]
      · have hd : n / 10 < fuel := by omega
        simp [natDigits, hn, digitsVal_append_singleton, ih _ hd,
          charOfNat_toNat (48 + n % 10) (by omega)]
        omega

theorem natDigits_ne_nil (fuel n : Nat) (h : 0 < fuel) : natDigits fuel n ≠ [] := by
  cases fuel with
  | zero => omega
  | succ fuel =>
      by_cases hn : n < 10 <;> simp [natDigits, hn]

theorem natDigits_length_le (fuel : Nat) :
    ∀ n k, n < 10 ^ k → 0 < k → n < fuel → (natDigits fuel n).length ≤ k := by
  induction fuel with
  | zero => intro n k _ _ h; omega
  | succ fuel ih =>
      intro n k hk hkpos h
      by_cases hn : n < 10
      · simp [natDigits, hn]
        omega
      · have hk2 : 2 ≤ k := by
          by_contra hc
          interval_cases k
          all_goals omega
        have hq : n / 10 < 10 ^ (k - 1) := by
          rw [Nat.div_lt_iff_lt_mul (by omega)]
          calc n < 10 ^ k := hk
          _ = 10 ^ (k - 1) * 10 := by
                rw [← pow_succ]
                congr 1
                omega
        have := ih (n / 10) (k - 1) hq (by omega) (by omega)
        simp [natDigits, hn]
        omega

theorem takeWhile_all {p : Char → Bool} :
    ∀ l : List Char, (∀ c ∈ l, p c = true) → l.takeWhile p = l ∧ l.dropWhile p = [] := by
  intro l h
  induction l with
  | nil => simp
  | cons c tl ih =>
      have hc : p c = true := h c (by simp)
      have := ih (fun x hx => h x (by simp [hx]))
      simp [List.takeWhile, List.dropWhile, hc, this.1, this.2]

theorem takeWhile_append_not {p : Char → Bool} :
    ∀ (l₁ : List Char) (x : Char) (l₂ : List Char), (∀ c ∈ l₁, p c = true) → p x = false →
      (l₁ ++ x :: l₂).takeWhile p = l₁ ∧ (l₁ ++ x :: l₂).dropWhile p = x :: l₂ := by
  intro l₁ x l₂ h hx
  induction l₁ with
  | nil => simp [List.takeWhile, List.dropWhile, hx]
  | cons c tl ih =>
      have hc : p c = true := h c (by simp)
      have := ih (fun y hy => h y (by simp [hy]))
      simp [List.takeWhile, List.dropWhile, hc, this.1, this.2]


theorem skipDigits_enumFrom_append (l : List Char) :
    ∀ (k : Nat) (r : List (Nat × Char)), (∀ c ∈ l, c.isDigit = true) →
      skipDigits (List.enumFrom k l ++ r) = skipDigits r := by
  induction l with
  | nil => intro k r _; rfl
  | cons c tl ih =>
      intro k r h
      have hc : c.isDigit = true := h c (by simp)
      simp only [List.enumFrom, List.cons_append, skipDigits, hc, if_pos]
      exact ih (k + 1) r (fun x hx => h x (by simp [hx]))

theorem skipDigits_enumFrom (l : List Char) (k : Nat)
    (h : ∀ c ∈ l, c.isDigit = true) : skipDigits (List.enumFrom k l) = [] := by
  have := skipDigits_enumFrom_append l k [] h
  simpa using this

theorem skipDigits_not_head (p : Nat) (c : Char) (tl : List (Nat × Char))
    (h : c.isDigit = false) : skipDigits ((p, c) :: tl) = (p, c) :: tl := by
  simp [skipDigits, h]

theorem nthIter_eq (n : Nat) :
    ∀ l : List (Nat × Char), nthIter n l = (l.get? n, l.drop (n + 1)) := by
  induction n with
  | zero => intro l; cases l <;> rfl
  | succ n ih =>
      intro l
      cases l with
      | nil => rfl
      | cons x tl => simpa [nthIter] using ih tl

theorem drop_enumFrom (l : List Char) :
    ∀ (j k : Nat), List.drop j (List.enumFrom k l) = List.enumFrom (k + j) (List.drop j l) := by
  induction l with
  | nil => intro j k; simp
  | cons c tl ih =>
      intro j k
      cases j with
      | zero => simp
      | succ j =>
          simp only [List.enumFrom, List.drop_succ_cons]
          rw [ih j (k + 1)]
          congr 1
          omega

theorem get?_enumFrom (l : List Char) :
    ∀ (j k : Nat), (List.enumFrom k l).get? j = (l.get? j).map (fun c => (k + j, c)) := by
  induction l with
  | nil => intro j k; simp
  | cons c tl ih =>
      intro j k
      cases j with
      | zero => simp [List.enumFrom]
      | succ j =>
          simp only [List.enumFrom, List.get?_cons_succ]
          rw [ih j (k + 1)]
          cases tl.get? j
          all_goals simp
          omega

theorem factorOut_mul (p : Nat) (hp : 2 ≤ p) :
    ∀ fuel n, n ≤ fuel → p ^ (factorOut p fuel n).1 * (factorOut p fuel n).2 = n := by
  intro fuel
  induction fuel with
  | zero =>
      intro n h
      have : n = 0 := by omega
      subst this
      simp [factorOut]
  | succ fuel ih =>
      intro n h
      by_cases hc : n ≠ 0 ∧ n % p = 0
      · have hdvd : p ∣ n := Nat.dvd_of_mod_eq_zero hc.2
        have hlt : n / p < n := Nat.div_lt_self (by omega) (by omega)
        have := ih (n / p) (by omega)
        have hb : (decide (n ≠ 0) && decide (n % p = 0)) = true := by
          simp only [Bool.and_eq_true, decide_eq_true_eq]
          exact hc
        simp only [factorOut]
        rw [if_pos hb]
        simp only [pow_succ]
        calc p ^ (factorOut p fuel (n / p)).1 * p * (factorOut p fuel (n / p)).2
            = p * (p ^ (factorOut p fuel (n / p)).1 * (factorOut p fuel (n / p)).2) := by ring
          _ = p * (n / p) := by rw [this]
          _ = n := Nat.mul_div_cancel' hdvd
      · have hb : ¬(decide (n ≠ 0) && decide (n % p = 0)) = true := by
          simp only [Bool.and_eq_true, decide_eq_true_eq]
          exact hc
        simp only [factorOut]
        rw [if_neg hb]
        simp

theorem decExponent_dvd (q : ℚ) (e : Nat) (h : decExponent q = some e) :
    q.den ∣ 10 ^ e := by
  unfold decExponent at h
  set a := (factorOut 2 q.den q.den).1 with ha
  set r2 := (factorOut 2 q.den q.den).2 with hr2
  set b := (factorOut 5 r2 r2).1 with hb
  set r5 := (factorOut 5 r2 r2).2 with hr5
  by_cases h5 : r5 = 1
  · simp only [← ha, ← hr2, ← hb, ← hr5, h5, if_pos] at h
    have hden : 2 ^ a * r2 = q.den := factorOut_mul 2 (by omega) q.den q.den (le_refl _)
    have hr : 5 ^ b * r5 = r2 := factorOut_mul 5 (by omega) r2 r2 (le_refl _)
    have hq : q.den = 2 ^ a * 5 ^ b := by
      rw [← hden, ← hr, h5]
      ring
    have h10 : (10 : Nat) ^ e = 2 ^ e * 5 ^ e := by
      rw [← Nat.mul_pow]
    have he : max a b = e := Option.some.inj h
    rw [hq, h10]
    exact Nat.mul_dvd_mul (Nat.pow_dvd_pow 2 (he ▸ Nat.le_max_left a b))
      (Nat.pow_dvd_pow 5 (he ▸ Nat.le_max_right a b))
  · simp only [← ha, ← hr2, ← hb, ← hr5, h5, if_neg, ite_false] at h
    cases h


theorem parseF64_digits (D : List Char) (hD : ∀ c ∈ D, c.isDigit = true)
    (hne : D ≠ []) : parseF64 (String.mk D) = some (mkRat (digitsVal D) 1) := by
  obtain ⟨d, tl, rfl⟩ := List.exists_cons_of_ne_nil hne
  have hd : d.isDigit = true := hD d (by simp)
  have h1 : d ≠ '+' := digit_ne d '+' hd (by decide)
  have h2 : d ≠ '-' := digit_ne d '-' hd (by decide)
  have htake := takeWhile_all (p := Char.isDigit) (d :: tl) hD
  simp only [parseF64, if_neg h1, if_neg h2, htake.1, htake.2]
  simp

theorem parseF64_dot (D F : List Char) (hD : ∀ c ∈ D, c.isDigit = true)
    (hF : ∀ c ∈ F, c.isDigit = true) (hDne : D ≠ []) :
    parseF64 (String.mk (D ++ '.' :: F)) =
      some (mkRat (digitsVal D * 10 ^ F.length + digitsVal F) (10 ^ F.length)) := by
  obtain ⟨d, tl, rfl⟩ := List.exists_cons_of_ne_nil hDne
  have hd : d.isDigit = true := hD d (by simp)
  have h1 : d ≠ '+' := digit_ne d '+' hd (by decide)
  have h2 : d ≠ '-' := digit_ne d '-' hd (by decide)
  have htake := takeWhile_append_not (p := Char.isDigit) (d :: tl) '.' F hD (by decide)
  have hftake := takeWhile_all (p := Char.isDigit) F hF
  simp only [parseF64, List.cons_append, if_neg h1, if_neg h2]
  simp only [← List.cons_append, htake.1, htake.2, hftake.1, hftake.2]
  simp

theorem lexNumber_all_digits (src pre : List Char) (d : Char) (tl : List Char)
    (hsrc : src = pre ++ d :: tl) (hd : d.isDigit = true)
    (htl : ∀ c ∈ tl, c.isDigit = true) :
    lexNumber src pre.length (List.enumFrom (pre.length + 1) tl) =
      some (.number (mkRat (digitsVal (d :: tl)) 1), []) := by
  have hskip : skipDigits (List.enumFrom (pre.length + 1) tl) = [] :=
    skipDigits_enumFrom tl _ htl
  have hdrop : List.drop pre.length src = d :: tl := by
    rw [hsrc]; exact List.drop_left pre (d :: tl)
  have hlen : src.length = pre.length + (d :: tl).length := by
    rw [hsrc]; simp
  simp only [lexNumber, hskip, endPos, slice, hdrop, hlen]
  rw [Nat.add_sub_cancel_left, List.take_length]
  rw [parseF64_digits (d :: tl) (List.forall_mem_cons.2 ⟨hd, htl⟩) (by simp)]

theorem lexNumber_dot (src pre : List Char) (d : Char) (tl F : List Char)
    (hsrc : src = pre ++ (d :: tl ++ '.' :: F)) (hd : d.isDigit = true)
    (htl : ∀ c ∈ tl, c.isDigit = true) (hF : ∀ c ∈ F, c.isDigit = true)
    ( _hFne : F ≠ []) :
    lexNumber src pre.length (List.enumFrom (pre.length + 1) (tl ++ '.' :: F)) =
      some (.number (mkRat (digitsVal (d :: tl) * 10 ^ F.length + digitsVal F)
              (10 ^ F.length)), []) := by
  have hskip : skipDigits (List.enumFrom (pre.length + 1) (tl ++ '.' :: F)) =
      (pre.length + 1 + tl.length, '.') :: List.enumFrom (pre.length + 1 + tl.length + 1) F := by
    rw [List.enumFrom_append, skipDigits_enumFrom_append tl _ _ htl]
    rfl
  have hr2 : (match nthIter (pre.length + 1 + tl.length + 1)
        ((pre.length + 1 + tl.length, '.') :: List.enumFrom (pre.length + 1 + tl.length + 1) F) with
      | (some (_, c), r) => if c.isDigit then skipDigits (r.drop 1) else r
      | (none, r) => r) = [] := by
    set dp := pre.length + 1 + tl.length with hdp
    rw [nthIter_eq]
    by_cases hlt : dp + 1 ≤ F.length
    · have hget : ((dp, '.') :: List.enumFrom (dp + 1) F).get? (dp + 1) =
          (F.get? dp).map (fun c => (dp + 1 + dp, c)) := by
        rw [List.get?_cons_succ, get?_enumFrom]
      have hlt2 : dp < F.length := by omega
      rw [hget, List.get?_eq_get hlt2]
      simp only [Option.map_some']
      rw [if_pos (hF _ (F.get_mem dp hlt2))]
      rw [List.drop_succ_cons, drop_enumFrom, drop_enumFrom]
      apply skipDigits_enumFrom
      intro c hcm
      exact hF c (List.mem_of_mem_drop (List.mem_of_mem_drop hcm))
    · have hget : ((dp, '.') :: List.enumFrom (dp + 1) F).get? (dp + 1) = none := by
        rw [List.get?_cons_succ, get?_enumFrom, List.get?_eq_none.mpr (by omega)]
        rfl
      rw [hget]
      simp only
      rw [List.drop_succ_cons]
      apply List.drop_eq_nil_of_le
      simp
      omega
  have hdrop : List.drop pre.length src = d :: tl ++ '.' :: F := by
    rw [hsrc]
    exact List.drop_left pre _
  have hlen : src.length = pre.length + (d :: tl ++ '.' :: F).length := by
    rw [hsrc]; simp
  simp only [lexNumber, hskip]
  rw [hr2]
  simp only [endPos, slice, hdrop, hlen]
  rw [Nat.add_sub_cancel_left, List.take_length]
  rw [parseF64_dot (d :: tl) F (List.forall_mem_cons.2 ⟨hd, htl⟩) hF (by simp)]


theorem mkToken_suffix (pre N : List Char) (tt : TokenType) (line : Nat) :
    mkToken (pre ++ N) pre.length line tt [] = ⟨tt, String.mk N, line⟩ := by
  simp [mkToken, slice, endPos, List.drop_left]

theorem lexerNext_digit (fuel : Nat) (source : List Char) (p : Nat) (d : Char)
    (tl : List (Nat × Char)) (line : Nat) (eofR : Bool) (hd : d.isDigit = true) :
    lexerNext (fuel + 1) ⟨source, (p, d) :: tl, line, eofR⟩ =
      (match lexNumber source p tl with
       | some (tt, r) =>
           (.item (.ok (mkToken source p line tt r)), ⟨source, r, line, eofR⟩)
       | none => (.panic, ⟨source, tl, line, eofR⟩)) := by
  have n01 : d ≠ '(' := digit_ne d _ hd (by decide)
  have n02 : d ≠ ')' := digit_ne d _ hd (by decide)
  have n03 : d ≠ '{' := digit_ne d _ hd (by decide)
  have n04 : d ≠ '}' := digit_ne d _ hd (by decide)
  have n05 : d ≠ ',' := digit_ne d _ hd (by decide)
  have n06 : d ≠ '.' := digit_ne d _ hd (by decide)
  have n07 : d ≠ '+' := digit_ne d _ hd (by decide)
  have n08 : d ≠ '-' := digit_ne d _ hd (by decide)
  have n09 : d ≠ '*' := digit_ne d _ hd (by decide)
  have n10 : d ≠ ';' := digit_ne d _ hd (by decide)
  have n11 : d ≠ '!' := digit_ne d _ hd (by decide)
  have n12 : d ≠ '=' := digit_ne d _ hd (by decide)
  have n13 : d ≠ '<' := digit_ne d _ hd (by decide)
  have n14 : d ≠ '>' := digit_ne d _ hd (by decide)
  have n15 : d ≠ '/' := digit_ne d _ hd (by decide)
  have n16 : d ≠ ' ' := digit_ne d _ hd (by decide)
  have n17 : d ≠ '\r' := digit_ne d _ hd (by decide)
  have n18 : d ≠ '\t' := digit_ne d _ hd (by decide)
  have n19 : d ≠ '\n' := digit_ne d _ hd (by decide)
  have n20 : d ≠ '"' := digit_ne d _ hd (by decide)
  simp only [lexerNext, if_neg n01, if_neg n02, if_neg n03, if_neg n04, if_neg n05,
    if_neg n06, if_neg n07, if_neg n08, if_neg n09, if_neg n10, if_neg n11,
    if_neg n12, if_neg n13, if_neg n14, if_neg n15, if_neg n16, if_neg n17,
    if_neg n18, if_neg n19, if_neg n20, if_pos hd]

theorem lexerNext_minus (fuel : Nat) (source : List Char) (p : Nat)
    (tl : List (Nat × Char)) (line : Nat) (eofR : Bool) :
    lexerNext (fuel + 1) ⟨source, (p, '-') :: tl, line, eofR⟩ =
      (.item (.ok (mkToken source p line .minus tl)),
       ⟨source, tl, line, eofR⟩) := by
  simp [lexerNext]

theorem lexGo_step_item (fuel : Nat) (st : LexerSt) (t : Token) (st' : LexerSt)
    (toks : List Token) (errs : List LoxError)
    (h : lexerNext (fuel + 1) st = (.item (.ok t), st')) :
    lexGo (fuel + 1) st toks errs = lexGo fuel st' (t :: toks) errs := by
  simp only [lexGo]
  rw [h]

theorem lexGo_number_eof (fuel : Nat) (source : List Char) (preLen : Nat)
    (d : Char) (rest' : List Char) (toks : List Token) (errs : List LoxError)
    (hd : d.isDigit = true) (tt : TokenType)
    (hnum : lexNumber source preLen (List.enumFrom (preLen + 1) rest') =
      some (tt, [])) :
    lexGo (fuel + 3)
        ⟨source, (preLen, d) :: List.enumFrom (preLen + 1) rest', 1, false⟩ toks errs =
      .ok ((⟨.eof, "", 1⟩ :: mkToken source preLen 1 tt [] :: toks).reverse,
           errs.reverse) := by
  rw [lexGo_step_item (fuel + 2) _ (mkToken source preLen 1 tt []) ⟨source, [], 1, false⟩ toks errs
    (by rw [lexerNext_digit (fuel + 2) source preLen d _ 1 false hd, hnum])]
  rw [lexGo_step_item (fuel + 1) ⟨source, [], 1, false⟩ ⟨.eof, "", 1⟩
    ⟨source, [], 1, true⟩ (mkToken source preLen 1 tt [] :: toks) errs rfl]
  simp [lexGo, lexerNext]


theorem lex_numeral (N : List Char) (d : Char) (tl : List Char) (hN : N = d :: tl)
    (hd : d.isDigit = true) (tt : TokenType)
    (hnum : lexNumber N 0 (List.enumFrom 1 tl) = some (tt, [])) :
    lex 99 (String.mk N) = .ok ([⟨tt, String.mk N, 1⟩, ⟨.eof, "", 1⟩], []) := by
  subst hN
  calc lex 99 (String.mk (d :: tl))
      = lexGo (96 + 3) ⟨d :: tl, (0, d) :: List.enumFrom (0 + 1) tl, 1, false⟩ [] [] := rfl
    _ = .ok ((⟨.eof, "", 1⟩ :: mkToken (d :: tl) 0 1 tt [] :: ([] : List Token)).reverse,
          List.reverse []) :=
        lexGo_number_eof 96 (d :: tl) 0 d tl [] [] hd tt hnum
    _ = .ok ([⟨tt, String.mk (d :: tl), 1⟩, ⟨.eof, "", 1⟩], []) := by
        rw [show mkToken (d :: tl) 0 1 tt [] = ⟨tt, String.mk (d :: tl), 1⟩ from
          mkToken_suffix [] (d :: tl) tt 1]
        rfl

theorem lex_neg_numeral (N : List Char) (d : Char) (tl : List Char) (hN : N = d :: tl)
    (hd : d.isDigit = true) (tt : TokenType)
    (hnum : lexNumber ('-' :: N) 1 (List.enumFrom 2 tl) = some (tt, [])) :
    lex 99 (String.mk ('-' :: N)) =
      .ok ([⟨.minus, "-", 1⟩, ⟨tt, String.mk N, 1⟩, ⟨.eof, "", 1⟩], []) := by
  subst hN
  calc lex 99 (String.mk ('-' :: d :: tl))
      = lexGo (98 + 1) ⟨'-' :: d :: tl, (0, '-') :: (1, d) :: List.enumFrom 2 tl, 1, false⟩
          [] [] := rfl
    _ = lexGo 98 ⟨'-' :: d :: tl, (1, d) :: List.enumFrom 2 tl, 1, false⟩
          [mkToken ('-' :: d :: tl) 0 1 .minus ((1, d) :: List.enumFrom 2 tl)] [] :=
        lexGo_step_item 98 _ _ _ [] []
          (lexerNext_minus 98 ('-' :: d :: tl) 0 ((1, d) :: List.enumFrom 2 tl) 1 false)
    _ = .ok ((⟨.eof, "", 1⟩ :: mkToken ('-' :: d :: tl) 1 1 tt [] ::
          [mkToken ('-' :: d :: tl) 0 1 .minus ((1, d) :: List.enumFrom 2 tl)]).reverse,
          List.reverse []) :=
        lexGo_number_eof 95 ('-' :: d :: tl) 1 d tl _ [] hd tt hnum
    _ = .ok ([⟨.minus, "-", 1⟩, ⟨tt, String.mk (d :: tl), 1⟩, ⟨.eof, "", 1⟩], []) := by
        rw [show mkToken ('-' :: d :: tl) 1 1 tt [] = ⟨tt, String.mk (d :: tl), 1⟩ from
          mkToken_suffix ['-'] (d :: tl) tt 1]
        rfl

theorem expression_number (q : ℚ) (lx : String) :
    expression 99 ⟨[⟨.number q, lx, 1⟩, ⟨.eof, "", 1⟩], 0⟩ =
      (.ok (.number q), ⟨[⟨.eof, "", 1⟩], 0⟩) := rfl

theorem expression_neg_number (q : ℚ) (lx lx2 : String) :
    expression 99 ⟨[⟨.minus, lx2, 1⟩, ⟨.number q, lx, 1⟩, ⟨.eof, "", 1⟩], 0⟩ =
      (.ok (.unary .minus (.number q)), ⟨[⟨.eof, "", 1⟩], 0⟩) := rfl

theorem evaluate_number (fuel : Nat) (q : ℚ) (st : InterpSt) :
    evaluate (fuel + 1) (.number q) st = (.ok (.number q), st) := rfl

theorem evaluate_neg_number (fuel : Nat) (q : ℚ) (st : InterpSt) :
    evaluate (fuel + 3) (.unary .minus (.number q)) st = (.ok (.number (-q)), st) := rfl


theorem mkRat_digitsVal_int (n : Nat) :
    mkRat (digitsVal (natDigits (n + 1) n) : Int) 1 = (n : ℚ) := by
  rw [digitsVal_natDigits (n + 1) n (by omega), Rat.mkRat_one]
  norm_num

theorem decExponent_pos (q : ℚ) (e : Nat) (he : decExponent q = some e)
    (hden : q.den ≠ 1) : 0 < e := by
  by_contra hc
  have he0 : e = 0 := by omega
  have := decExponent_dvd q e he
  rw [he0, pow_zero] at this
  exact hden (Nat.eq_one_of_dvd_one this)

theorem mkRat_reconstruct (q : ℚ) (e : Nat) (he : decExponent q = some e) :
    mkRat ((q.num.natAbs * 10 ^ e / q.den : ℕ) : ℤ) ((10 : ℕ) ^ e) =
      (q.num.natAbs : ℚ) / (q.den : ℚ) := by
  have hdvd : q.den ∣ q.num.natAbs * 10 ^ e :=
    Dvd.dvd.mul_left (decExponent_dvd q e he) _
  have hm : q.num.natAbs * 10 ^ e / q.den * q.den = q.num.natAbs * 10 ^ e :=
    Nat.div_mul_cancel hdvd
  have hmq : ((q.num.natAbs * 10 ^ e / q.den : ℕ) : ℚ) * (q.den : ℚ) =
      ((q.num.natAbs * 10 ^ e : ℕ) : ℚ) := by
    exact_mod_cast congrArg (fun n : ℕ => (n : ℚ)) hm
  rw [Rat.mkRat_eq_div]
  rw [div_eq_div_iff (by positivity) (by exact_mod_cast q.den_pos.ne')]
  rw [Int.cast_natCast]
  rw [Nat.cast_mul] at hmq
  exact hmq

theorem natAbs_div_den (q : ℚ) (hq : 0 ≤ q.num) :
    (q.num.natAbs : ℚ) / (q.den : ℚ) = q := by
  have h : (q.num.natAbs : ℚ) = (q.num : ℚ) := by
    rw [Int.cast_natAbs, abs_of_nonneg hq]
  rw [h, Rat.num_div_den]

theorem neg_natAbs_div_den (q : ℚ) (hq : q.num < 0) :
    -((q.num.natAbs : ℚ) / (q.den : ℚ)) = q := by
  have h : (q.num.natAbs : ℚ) = -(q.num : ℚ) := by
    rw [Int.cast_natAbs, abs_of_neg hq, Int.cast_neg]
  rw [h, neg_div, neg_neg, Rat.num_div_den]


theorem strMk_append (a b : List Char) : String.mk a ++ String.mk b = String.mk (a ++ b) := rfl

theorem display_assemble (s : String) (sl : List Char) (hs : s = String.mk sl)
    (Dl Nl : List Char) (e : Nat) :
    s ++ String.mk Dl ++ "." ++ padZeros (String.mk Nl) e =
      String.mk (sl ++ (Dl ++ '.' :: (List.replicate (e - Nl.length) '0' ++ Nl))) := by
  subst hs
  unfold padZeros
  rw [show ("." : String) = String.mk ['.'] from rfl, strMk_append, strMk_append, strMk_append]
  congr 1
  simp [show (String.mk Nl).length = Nl.length from rfl]

theorem numberDisplay_frac (q : ℚ) (e : Nat) (hden : ¬ q.den = 1)
    (he : decExponent q = some e) :
    numberDisplay q =
      (if q.num < 0 then "-" else "") ++
        natToString (q.num.natAbs * 10 ^ e / q.den / 10 ^ e) ++ "." ++
        padZeros (natToString (q.num.natAbs * 10 ^ e / q.den % 10 ^ e)) e := by
  unfold numberDisplay
  rw [if_neg hden, he]

theorem roundTrip_numeral (q v : ℚ) (d : Char) (tl : List Char)
    (hdisp : numberDisplay q = String.mk (d :: tl))
    (hd : d.isDigit = true)
    (hnum : lexNumber (d :: tl) 0 (List.enumFrom 1 tl) = some (.number v, []))
    (hv : v = q) :
    roundTrip 99 (.number q) = .ok (.number q) := by
  subst hv
  have hlex := lex_numeral (d :: tl) d tl rfl hd (.number v) hnum
  unfold roundTrip
  simp only [displayObject]
  rw [hdisp, hlex]
  rfl

theorem roundTrip_neg_numeral (q v : ℚ) (d : Char) (tl : List Char)
    (hdisp : numberDisplay q = String.mk ('-' :: d :: tl))
    (hd : d.isDigit = true)
    (hnum : lexNumber ('-' :: d :: tl) 1 (List.enumFrom 2 tl) = some (.number v, []))
    (hv : -v = q) :
    roundTrip 99 (.number q) = .ok (.number q) := by
  subst hv
  have hlex := lex_neg_numeral (d :: tl) d tl rfl hd (.number v) hnum
  unfold roundTrip
  simp only [displayObject]
  rw [hdisp, hlex]
  rfl


theorem roundTrip_finite_decimal (q : ℚ) (h : IsFiniteDecimal q) :
    roundTrip 99 (.number q) = .ok (.number q) := by
  by_cases hden : q.den = 1
  · obtain ⟨d, tl, hN⟩ :=
      List.exists_cons_of_ne_nil (natDigits_ne_nil (q.num.natAbs + 1) q.num.natAbs (by omega))
    have hd : d.isDigit = true :=
      natDigits_all_digits _ _ d (by rw [hN]; exact List.mem_cons_self _ _)
    have htl : ∀ c ∈ tl, c.isDigit = true := fun c hc =>
      natDigits_all_digits _ _ c (by rw [hN]; exact List.mem_cons_of_mem _ hc)
    by_cases hneg : q.num < 0
    · apply roundTrip_neg_numeral q (mkRat (digitsVal (d :: tl)) 1) d tl
      · unfold numberDisplay intToString natToString
        rw [if_pos hden, if_pos hneg, hN]
        rfl
      · exact hd
      · exact lexNumber_all_digits ('-' :: d :: tl) ['-'] d tl rfl hd htl
      · rw [← hN, mkRat_digitsVal_int, Int.cast_natAbs, abs_of_neg hneg, Int.cast_neg, neg_neg]
        exact (Rat.den_eq_one_iff q).mp hden
    · apply roundTrip_numeral q (mkRat (digitsVal (d :: tl)) 1) d tl
      · unfold numberDisplay intToString natToString
        rw [if_pos hden, if_neg hneg, hN]
        rfl
      · exact hd
      · exact lexNumber_all_digits (d :: tl) [] d tl rfl hd htl
      · rw [← hN, mkRat_digitsVal_int, Int.cast_natAbs, abs_of_nonneg (not_lt.mp hneg)]
        exact (Rat.den_eq_one_iff q).mp hden
  · obtain ⟨e, he⟩ := Option.isSome_iff_exists.mp h
    have hepos : 0 < e := decExponent_pos q e he hden
    have hdisp0 := numberDisplay_frac q e hden he
    unfold natToString at hdisp0
    set m := q.num.natAbs * 10 ^ e / q.den with hm
    set I := m / 10 ^ e with hI
    set fp := m % 10 ^ e with hfp
    set N := natDigits (fp + 1) fp with hNdef
    set F := List.replicate (e - N.length) '0' ++ N with hFdef
    obtain ⟨d, tlD, hD⟩ :=
      List.exists_cons_of_ne_nil (natDigits_ne_nil (I + 1) I (Nat.succ_pos I))
    have hd : d.isDigit = true :=
      natDigits_all_digits _ _ d (by rw [hD]; exact List.mem_cons_self _ _)
    have htlD : ∀ c ∈ tlD, c.isDigit = true := fun c hc =>
      natDigits_all_digits _ _ c (by rw [hD]; exact List.mem_cons_of_mem _ hc)
    have hF : ∀ c ∈ F, c.isDigit = true := by
      intro c hc
      rw [hFdef] at hc
      rcases List.mem_append.mp hc with hc | hc
      · rw [List.eq_of_mem_replicate hc]; decide
      · exact natDigits_all_digits _ _ c (hNdef ▸ hc)
    have hFne : F ≠ [] := by
      rw [hFdef]
      intro hc
      rcases List.append_eq_nil.mp hc with ⟨-, hc2⟩
      exact natDigits_ne_nil (fp + 1) fp (Nat.succ_pos fp) (hNdef ▸ hc2)
    have hlen : N.length ≤ e := by
      rw [hNdef]
      exact natDigits_length_le (fp + 1) fp e (hfp ▸ Nat.mod_lt _ (pow_pos (by norm_num) e))
        hepos (Nat.lt_succ_self fp)
    have hFlen : F.length = e := by
      rw [hFdef, List.length_append, List.length_replicate]
      omega
    have hval : mkRat (digitsVal (d :: tlD) * 10 ^ F.length + digitsVal F) (10 ^ F.length) =
        (q.num.natAbs : ℚ) / (q.den : ℚ) := by
      rw [← hD, digitsVal_natDigits (I + 1) I (Nat.lt_succ_self I), hFlen, hFdef,
        digitsVal_replicate_zero, hNdef, digitsVal_natDigits (fp + 1) fp (Nat.lt_succ_self fp)]
      have hnm : I * 10 ^ e + fp = m := by
        rw [hI, hfp, Nat.mul_comm]; exact Nat.div_add_mod m (10 ^ e)
      rw [show (I : ℤ) * 10 ^ e + (fp : ℤ) = ((m : ℕ) : ℤ) from by exact_mod_cast hnm]
      rw [hm]
      exact mkRat_reconstruct q e he
    by_cases hneg : q.num < 0
    · rw [if_pos hneg] at hdisp0
      rw [display_assemble "-" ['-'] rfl (natDigits (I + 1) I) N e] at hdisp0
      rw [hD, ← hFdef] at hdisp0
      simp only [List.cons_append, List.nil_append] at hdisp0
      apply roundTrip_neg_numeral q _ d (tlD ++ '.' :: F) hdisp0 hd
      · exact lexNumber_dot ('-' :: d :: tlD ++ '.' :: F) ['-'] d tlD F rfl hd htlD hF hFne
      · rw [hval]
        exact neg_natAbs_div_den q hneg
    · rw [if_neg hneg] at hdisp0
      rw [display_assemble "" [] rfl (natDigits (I + 1) I) N e] at hdisp0
      rw [hD, ← hFdef] at hdisp0
      simp only [List.cons_append, List.nil_append] at hdisp0
      apply roundTrip_numeral q _ d (tlD ++ '.' :: F) hdisp0 hd
      · exact lexNumber_dot (d :: tlD ++ '.' :: F) [] d tlD F rfl hd htlD hF hFne
      · rw [hval]
        exact natAbs_div_den q (not_lt.mp hneg)


/-- C9: counterexample to the round-trip claim for `String` values — `Display`
prints a string without quotes, so displaying `"hi"` yields the bare text
`hi`, which re-lexes as an identifier and evaluates to an undefined-variable
error rather than recovering the original string value. -/
theorem C9_string_roundtrip_fails :
    roundTrip 99 (.string "hi") =
      .error (.err (.environmentError "Undefined variable 'hi'.")) := rfl

/-- C9: the round-trip display → lex → parse → evaluate recovers the original
value for `Number` values with a finite decimal expansion (every value an
IEEE-754 double can hold is one), for both `Boolean` values, and for `Nil`.
`String` values do not round-trip (see the counterexample): their display form
is unquoted, so the claim holds only on the number/boolean/nil fragment. -/
theorem C9_roundtrip :
    (∀ q : ℚ, IsFiniteDecimal q → roundTrip 99 (.number q) = .ok (.number q)) ∧
    (∀ b : Bool, roundTrip 99 (.boolean b) = .ok (.boolean b)) ∧
    roundTrip 99 .nil = .ok .nil := by
  refine ⟨roundTrip_finite_decimal, ?_, rfl⟩
  intro b
  cases b
  · rfl
  · rfl

theorem C9_roundtrip_witness :
    IsFiniteDecimal (mkRat 3 2) ∧
      roundTrip 99 (.number (mkRat 3 2)) = .ok (.number (mkRat 3 2)) :=
  ⟨rfl, C9_roundtrip.1 (mkRat 3 2) rfl⟩

end RLox
